import Mathlib

/-!
Verification development for the Ludo game engine (`src/backend/gameLogic.js`).

The source file contains three successive revisions of the `LudoGame` class;
the definitions below embed the final, feature-complete revision
(timer/elimination system, team mode, list-valued captures, three-sixes rule).
The earlier revision's auto-play distance helper `calculateDistanceToHome`,
which survives only in the middle revision, is embedded as well because the
auto-play claims refer to it.

JavaScript numbers holding board positions are embedded as `Int`
(`-1` = token in base, `0..51` = absolute track squares); dice values and
indices are `Nat`.  The random dice value of `rollDice` is passed as an
explicit argument, matching the specification's view of the dice source as
an external collaborator.  In-place mutation of the `this` object becomes
explicit state passing: each operation returns the new `LudoGame` together
with the result object the JS method returns.
-/

namespace Ludo

/-- The four token colors. -/
inductive Color
  | red
  | green
  | yellow
  | blue
deriving DecidableEq, BEq, Repr

/-- `START_POSITIONS` of the final revision (constructor, gameLogic.js:1190). -/
def START_POSITIONS : Color → Int
  | .red => 0
  | .green => 13
  | .yellow => 26
  | .blue => 39

/-- `HOME_ENTRANCE` of the final revision (constructor, gameLogic.js:1198). -/
def HOME_ENTRANCE : Color → Nat
  | .red => 50
  | .green => 11
  | .yellow => 24
  | .blue => 37

/-- `SAFE_POSITIONS` of the final revision (constructor, gameLogic.js:1187). -/
def SAFE_POSITIONS : List Int := [0, 8, 13, 21, 26, 34, 39, 47]

/-- `BOARD_SIZE` is 52, `TOKENS_PER_PLAYER` is 4, `HOME_STRETCH_LENGTH` is 5;
they are used literally below, as in the source. -/
def BOARD_SIZE : Nat := 52

/-- One token, as created by `initializeTokens` and mutated by the engine. -/
structure Token where
  id : Nat
  position : Int
  inHomeStretch : Bool
  homeStretchPosition : Int
  finished : Bool
deriving DecidableEq, BEq, Repr

/-- One player record (`addPlayer` / `addRobot`). -/
structure Player where
  id : String
  name : String
  color : Color
  tokens : List Token
  finishedTokens : Nat
  isRobot : Bool
deriving DecidableEq, BEq, Repr

/-- `this.winner`: a player object in solo mode, a team descriptor in team mode. -/
inductive Winner
  | player (p : Player)
  | team (name : String) (colors : List Color)
deriving DecidableEq, Repr

/-- The mutable state of a `LudoGame` instance (final revision's constructor). -/
structure LudoGame where
  players : List Player
  currentPlayerIndex : Nat
  gameStarted : Bool
  gameOver : Bool
  winner : Option Winner
  lastDiceRoll : Option Nat
  consecutiveSixes : Nat
  teamMode : Bool
  teams : Option (List Color × List Color)
  finishedPlayers : List String
  playerMissedTurns : List (String × Nat)
  eliminatedPlayers : List String
deriving DecidableEq, Repr

/-- `willEnterHomeStretch` (gameLogic.js:1564-1575): scans the `d` single-square
steps and reports whether one of them lands on or passes the home entrance,
with the source's two-branch wrap-around test. -/
def willEnterHomeStretch (currentPos diceValue homeEntrance : Nat) : Bool :=
  (List.range diceValue).any (fun j =>
    let i := j + 1
    let nextPos := (currentPos + i) % 52
    nextPos == homeEntrance ||
      (if currentPos < homeEntrance then
        nextPos > currentPos && nextPos ≥ homeEntrance
      else
        nextPos < currentPos && nextPos ≥ homeEntrance))

/-- `calculateHomeStretchSteps` (gameLogic.js:1580-1590): returns
`diceValue - i` for the first step `i` that reaches the entrance, else 0. -/
def calculateHomeStretchSteps (currentPos diceValue homeEntrance : Nat) : Nat :=
  match (List.range diceValue).find? (fun j =>
    let i := j + 1
    let nextPos := (currentPos + i) % 52
    nextPos == homeEntrance ||
      (currentPos < homeEntrance && nextPos ≥ homeEntrance) ||
      (currentPos > homeEntrance && nextPos < currentPos && nextPos ≥ homeEntrance)) with
  | some j => diceValue - (j + 1)
  | none => 0

/-- `initializeTokens` (gameLogic.js:1251-1263). -/
def initializeTokens : List Token :=
  (List.range 4).map (fun i =>
    { id := i, position := -1, inHomeStretch := false,
      homeStretchPosition := -1, finished := false })

/-- A fresh `LudoGame` (constructor, gameLogic.js:1154-1204).  The room id,
creator id and wall-clock timer fields are irrelevant to the game rules and
are not modelled. -/
def newLudoGame (teamMode : Bool) : LudoGame :=
  { players := [], currentPlayerIndex := 0, gameStarted := false,
    gameOver := false, winner := none, lastDiceRoll := none,
    consecutiveSixes := 0, teamMode := teamMode,
    teams := if teamMode then some ([], []) else none,
    finishedPlayers := [], playerMissedTurns := [], eliminatedPlayers := [] }

/-- Color assignment of `addPlayer` (gameLogic.js:1218-1232).  With fewer than
4 players present the `find?` always succeeds, so the `none` case is dead. -/
def pickColor (g : LudoGame) : Option Color :=
  let takenColors := g.players.map Player.color
  if g.players.length == 0 then some .red
  else if g.players.length == 1 && !takenColors.contains Color.yellow then some .yellow
  else [Color.red, .yellow, .blue, .green].find? (fun c => !takenColors.contains c)

/-- `addPlayer` (gameLogic.js:1209-1246). -/
def addPlayer (g : LudoGame) (pid pname : String) : LudoGame × Bool :=
  if g.players.length ≥ 4 then (g, false)
  else if g.gameStarted then (g, false)
  else
    match pickColor g with
    | none => (g, false)
    | some c =>
      ({ g with players := g.players ++
          [{ id := pid, name := pname, color := c, tokens := initializeTokens,
             finishedTokens := 0, isRobot := false }] }, true)

/-- `addRobot` (gameLogic.js:1268-1296); the generated robot id and name are
passed in, since uuid generation is an external input. -/
def addRobot (g : LudoGame) (rid rname : String) : LudoGame × Bool :=
  if g.players.length ≥ 4 then (g, false)
  else if g.gameStarted then (g, false)
  else
    match [Color.red, .yellow, .blue, .green].find?
        (fun c => !(g.players.map Player.color).contains c) with
    | none => (g, false)
    | some c =>
      ({ g with players := g.players ++
          [{ id := rid, name := rname, color := c, tokens := initializeTokens,
             finishedTokens := 0, isRobot := true }] }, true)

/-- `removePlayer` (gameLogic.js:1301-1314). -/
def removePlayer (g : LudoGame) (pid : String) : LudoGame × Bool :=
  match g.players.findIdx? (fun p => p.id == pid) with
  | none => (g, false)
  | some i =>
    let players' := g.players.eraseIdx i
    if g.currentPlayerIndex ≥ players'.length then
      ({ g with players := players', currentPlayerIndex := 0 }, true)
    else ({ g with players := players' }, true)

/-- `initializeTeams` (gameLogic.js:1652-1660). -/
def initializeTeams (g : LudoGame) : LudoGame :=
  if g.players.length == 2 then
    { g with teams := some ([Color.red], [Color.yellow]) }
  else if g.players.length == 4 then
    { g with teams := some ([Color.red, Color.yellow], [Color.blue, Color.green]) }
  else g

/-- `startGame` (gameLogic.js:1316-1329). -/
def startGame (g : LudoGame) : LudoGame × Bool :=
  if g.players.length < 2 then (g, false)
  else
    let g1 := { g with gameStarted := true, currentPlayerIndex := 0 }
    (if g1.teamMode then initializeTeams g1 else g1, true)

/-- `isPlayerFinished` of the final revision (gameLogic.js:1662-1665):
finished means all 4 tokens counted finished. -/
def isPlayerFinished (g : LudoGame) (pid : String) : Bool :=
  match g.players.find? (fun p => p.id == pid) with
  | some p => p.finishedTokens == 4
  | none => false

/-- `getTeammateColor` (gameLogic.js:1667-1676). -/
def getTeammateColor (g : LudoGame) (c : Color) : Option Color :=
  if !g.teamMode then none
  else
    match g.teams with
    | none => none
    | some (t1, t2) =>
      if t1.contains c then t1.find? (fun x => x != c)
      else if t2.contains c then t2.find? (fun x => x != c)
      else none

/-- The team-mode control redirection duplicated at gameLogic.js:1403-1409 and
1466-1470: a player who has finished all tokens controls the teammate's
tokens. -/
def controlledPlayer (g : LudoGame) (p : Player) : Player :=
  if g.teamMode && isPlayerFinished g p.id then
    match getTeammateColor g p.color with
    | some tc => (g.players.find? (fun q => q.color == tc)).getD p
    | none => p
  else p

/-- The per-token movability test of the `getMovableTokens` loop body
(gameLogic.js:1413-1438), in the source's branch order: base first, then
finished, then home stretch, then main track. -/
def movableCond (t : Token) (d : Nat) : Bool :=
  if t.position == -1 then d == 6
  else if t.finished then false
  else if t.inHomeStretch then decide (t.homeStretchPosition + (d : Int) ≤ 5)
  else true

/-- The index-collecting loop of `getMovableTokens` (gameLogic.js:1413-1439). -/
def movableTokensAux (d : Nat) : List Token → Nat → List Nat
  | [], _ => []
  | t :: rest, i =>
    if movableCond t d then i :: movableTokensAux d rest (i + 1)
    else movableTokensAux d rest (i + 1)

/-- `getMovableTokens` (gameLogic.js:1399-1443). -/
def getMovableTokens (g : LudoGame) (player : Player) (d : Nat) : List Nat :=
  let targetPlayer := controlledPlayer g player
  if isPlayerFinished g targetPlayer.id then []
  else movableTokensAux d targetPlayer.tokens 0

/-- One element of the `capturedList` built by `checkCapture`. -/
structure CaptureInfo where
  playerId : String
  playerName : String
  playerColor : Color
  tokenIndex : Nat
deriving DecidableEq, Repr

/-- The per-token capture test of `checkCapture` (gameLogic.js:1604). -/
def captureCond (t : Token) (pos : Int) : Bool :=
  t.position == pos && !t.inHomeStretch && !t.finished

/-- The inner token loop of `checkCapture` (gameLogic.js:1602-1613): resets
every matching token to base and records its index. -/
def capturePlayerTokens (pos : Int) : List Token → Nat → List Token × List Nat
  | [], _ => ([], [])
  | t :: rest, i =>
    let r := capturePlayerTokens pos rest (i + 1)
    if captureCond t pos then ({ t with position := -1 } :: r.1, i :: r.2)
    else (t :: r.1, r.2)

/-- `checkCapture` of the final revision (gameLogic.js:1595-1616): list-valued,
with the team-mode teammate exemption. -/
def checkCapture (g : LudoGame) (currentPlayer : Player) (pos : Int) :
    LudoGame × Option (List CaptureInfo) :=
  if SAFE_POSITIONS.contains pos then (g, none)
  else
    let teammateColor := getTeammateColor g currentPlayer.color
    let results := g.players.map (fun p =>
      if p.id == currentPlayer.id then (p, ([] : List CaptureInfo))
      else if g.teamMode && teammateColor == some p.color then (p, [])
      else
        let r := capturePlayerTokens pos p.tokens 0
        ({ p with tokens := r.1 },
         r.2.map (fun i => CaptureInfo.mk p.id p.name p.color i)))
    let capturedList := (results.map Prod.snd).flatten
    ({ g with players := results.map Prod.fst },
     if capturedList.isEmpty then none else some capturedList)

/-- Whether the player sitting at index `idx` is in the eliminated list
(`this.isPlayerEliminated(this.players[idx].id)`). -/
def eliminatedAt (players : List Player) (eliminated : List String) (idx : Nat) : Bool :=
  match players.get? idx with
  | some p => eliminated.contains p.id
  | none => false

/-- The do-while loop of `nextTurn` (gameLogic.js:1621-1625): step forward
circularly, skipping eliminated players, stopping after a full cycle. -/
def nextTurnIndex (players : List Player) (eliminated : List String) (start : Nat) : Nat :=
  match (List.range players.length).find? (fun j =>
    !eliminatedAt players eliminated ((start + j + 1) % players.length) ||
      (start + j + 1) % players.length == start) with
  | some j => (start + j + 1) % players.length
  | none => start

/-- `nextTurn` (gameLogic.js:1621-1630): also resets the six-streak and
clears the dice. -/
def nextTurn (g : LudoGame) : LudoGame :=
  { g with
    currentPlayerIndex := nextTurnIndex g.players g.eliminatedPlayers g.currentPlayerIndex,
    consecutiveSixes := 0, lastDiceRoll := none }

/-- `markPlayerFinished` (gameLogic.js:1678-1682). -/
def markPlayerFinished (g : LudoGame) (pid : String) : LudoGame :=
  if g.finishedPlayers.contains pid then g
  else { g with finishedPlayers := g.finishedPlayers ++ [pid] }

/-- The `every`-check of `checkTeamVictory` over one team's colors. -/
def allColorsFinished (g : LudoGame) (colors : List Color) : Bool :=
  colors.all (fun c =>
    match g.players.find? (fun p => p.color == c) with
    | some p => p.finishedTokens == 4
    | none => false)

/-- `checkTeamVictory` (gameLogic.js:1684-1697). -/
def checkTeamVictory (g : LudoGame) : Option (String × List Color) :=
  if !g.teamMode then none
  else
    match g.teams with
    | none => none
    | some (t1, t2) =>
      if allColorsFinished g t1 then some ("team1", t1)
      else if allColorsFinished g t2 then some ("team2", t2)
      else none

/-- Result object of `rollDice`.  In the three-sixes branch the source returns
no `movableTokens` field, modelled by `none`. -/
inductive RollOutcome
  | rejected (error : String)
  | rolled (diceValue : Nat) (canMove : Bool) (turnSkipped : Bool)
      (movableTokens : Option (List Nat))
deriving DecidableEq, Repr

/-- `rollDice` (gameLogic.js:1334-1394).  The random dice value is an
explicit argument. -/
def rollDice (g : LudoGame) (playerId : String) (diceValue : Nat) :
    LudoGame × RollOutcome :=
  if !g.gameStarted || g.gameOver then (g, .rejected "Game not in progress")
  else
    match g.players.get? g.currentPlayerIndex with
    | none => (g, .rejected "Not your turn")
    | some currentPlayer =>
      if currentPlayer.id != playerId then (g, .rejected "Not your turn")
      else
        let g1 := { g with
          lastDiceRoll := some diceValue
          consecutiveSixes := if diceValue == 6 then g.consecutiveSixes + 1 else 0 }
        if g1.consecutiveSixes == 3 then
          (nextTurn { g1 with lastDiceRoll := none }, .rolled diceValue false true none)
        else
          let movable := getMovableTokens g1 currentPlayer diceValue
          if movable.isEmpty then
            if diceValue == 6 then
              ({ g1 with lastDiceRoll := none },
               .rolled diceValue false false (some movable))
            else
              (nextTurn { g1 with lastDiceRoll := none },
               .rolled diceValue false true (some movable))
          else (g1, .rolled diceValue true false (some movable))

/-- Result object of `moveToken`. -/
inductive MoveOutcome
  | rejected (error : String)
  | moved (token : Token) (index : Nat) (playerColor : Color)
      (captured : Option (List CaptureInfo)) (anotherTurn : Bool)
      (gameOver : Bool) (winner : Option Winner) (playerFinished : Bool)
deriving DecidableEq, Repr

/-- The token-update cases of `moveToken` (gameLogic.js:1482-1515): returns
the updated token, whether `finishedTokens` is incremented, and whether the
capture check runs (only on a plain main-track advance). -/
def applyTokenMove (color : Color) (t : Token) (d : Nat) : Token × Bool × Bool :=
  if t.position == -1 then
    ({ t with position := START_POSITIONS color }, false, false)
  else if t.inHomeStretch then
    let hsp' := t.homeStretchPosition + (d : Int)
    ({ t with
        homeStretchPosition := hsp'
        finished := if hsp' == 5 then true else t.finished }, hsp' == 5, false)
  else
    let homeEntrance := HOME_ENTRANCE color
    if willEnterHomeStretch t.position.toNat d homeEntrance then
      let steps : Int := (calculateHomeStretchSteps t.position.toNat d homeEntrance : Int)
      ({ t with
          inHomeStretch := true
          homeStretchPosition := steps
          finished := if steps == 5 then true else t.finished }, steps == 5, false)
    else
      ({ t with position := (t.position + (d : Int)) % 52 }, false, true)

/-! The body of `moveToken` on a token that exists (gameLogic.js:1480-1558),
with `mp` the moving player and `token` the addressed token.  Each `let` of
the source becomes a named definition (`mt…`), so that the proofs below can
speak about the intermediate states. -/

/-- `token` after the move (`token'` below mirrors the in-place mutation). -/
def mtToken (mp : Player) (d : Nat) (token : Token) : Token :=
  (applyTokenMove mp.color token d).1

/-- Whether the move finished the token (`finishedTokens`-increment flag). -/
def mtFinishedInc (mp : Player) (d : Nat) (token : Token) : Bool :=
  (applyTokenMove mp.color token d).2.1

/-- Whether the move is a plain main-track advance, which checks captures. -/
def mtDoCapture (mp : Player) (d : Nat) (token : Token) : Bool :=
  (applyTokenMove mp.color token d).2.2

/-- The moving player after the token mutation and `finishedTokens++`. -/
def mtMover (mp : Player) (tokenIndex d : Nat) (token : Token) : Player :=
  { mp with
    tokens := mp.tokens.set tokenIndex (mtToken mp d token)
    finishedTokens := mp.finishedTokens + (if mtFinishedInc mp d token then 1 else 0) }

/-- The game with the moving player's mutation written back. -/
def mtG1 (g : LudoGame) (mp : Player) (tokenIndex d : Nat) (token : Token) : LudoGame :=
  { g with players := g.players.map (fun p =>
      if p.id == mp.id then mtMover mp tokenIndex d token else p) }

/-- `captured = this.checkCapture(movingPlayer, token.position)` on a plain
advance, `null` otherwise (gameLogic.js:1509-1514). -/
def mtCap (g : LudoGame) (mp : Player) (tokenIndex d : Nat) (token : Token) :
    LudoGame × Option (List CaptureInfo) :=
  if mtDoCapture mp d token then
    checkCapture (mtG1 g mp tokenIndex d token) (mtMover mp tokenIndex d token)
      (mtToken mp d token).position
  else (mtG1 g mp tokenIndex d token, none)

/-- The `markPlayerFinished` step (gameLogic.js:1517-1520). -/
def mtG3 (g : LudoGame) (mp : Player) (tokenIndex d : Nat) (token : Token) : LudoGame :=
  if (mtMover mp tokenIndex d token).finishedTokens == 4 then
    markPlayerFinished (mtCap g mp tokenIndex d token).1 mp.id
  else (mtCap g mp tokenIndex d token).1

/-- The win evaluation (gameLogic.js:1522-1533): new `gameOver` and `winner`. -/
def mtGv (g : LudoGame) (mp : Player) (tokenIndex d : Nat) (token : Token) :
    Bool × Option Winner :=
  if g.teamMode then
    match checkTeamVictory (mtG3 g mp tokenIndex d token) with
    | some tv => (true, some (Winner.team tv.1 tv.2))
    | none => (g.gameOver, g.winner)
  else if (mtMover mp tokenIndex d token).finishedTokens == 4 then
    (true, some (Winner.player (mtMover mp tokenIndex d token)))
  else (g.gameOver, g.winner)

/-- The state with the win evaluation written back. -/
def mtG4 (g : LudoGame) (mp : Player) (tokenIndex d : Nat) (token : Token) : LudoGame :=
  { mtG3 g mp tokenIndex d token with
    gameOver := (mtGv g mp tokenIndex d token).1
    winner := (mtGv g mp tokenIndex d token).2 }

/-- The bonus-turn decision (gameLogic.js:1536). -/
def mtAnother (g : LudoGame) (mp : Player) (tokenIndex d : Nat) (token : Token) : Bool :=
  (d == 6 || (mtCap g mp tokenIndex d token).2.isSome || (mtToken mp d token).finished) &&
    !(mtGv g mp tokenIndex d token).1

/-- The turn advance when no bonus turn is granted (gameLogic.js:1540-1544). -/
def mtG5 (g : LudoGame) (mp : Player) (tokenIndex d : Nat) (token : Token) : LudoGame :=
  if !mtAnother g mp tokenIndex d token then nextTurn (mtG4 g mp tokenIndex d token)
  else mtG4 g mp tokenIndex d token

/-- The final state: the dice roll is always cleared (gameLogic.js:1546). -/
def mtG6 (g : LudoGame) (mp : Player) (tokenIndex d : Nat) (token : Token) : LudoGame :=
  { mtG5 g mp tokenIndex d token with lastDiceRoll := none }

/-- The whole move body and its result object (gameLogic.js:1548-1558). -/
def moveTokenApply (g : LudoGame) (mp : Player) (tokenIndex d : Nat) (token : Token) :
    LudoGame × MoveOutcome :=
  (mtG6 g mp tokenIndex d token,
   .moved (mtToken mp d token) tokenIndex mp.color (mtCap g mp tokenIndex d token).2
     (mtAnother g mp tokenIndex d token) (mtG6 g mp tokenIndex d token).gameOver
     (mtG6 g mp tokenIndex d token).winner
     ((mtMover mp tokenIndex d token).finishedTokens == 4))

/-- The body of `moveToken` after all validations (gameLogic.js:1472-1558):
fetch the moving player's addressed token, then apply the move. -/
def moveTokenCore (g : LudoGame) (cp : Player) (tokenIndex d : Nat) :
    LudoGame × MoveOutcome :=
  match (controlledPlayer g cp).tokens.get? tokenIndex with
  | none => (g, .rejected "Cannot move this token")
  | some token => moveTokenApply g (controlledPlayer g cp) tokenIndex d token

/-- `moveToken` (gameLogic.js:1448-1559): validations, then the move body.
All rejections happen before any state is touched. -/
def moveToken (g : LudoGame) (playerId : String) (tokenIndex : Nat) :
    LudoGame × MoveOutcome :=
  if !g.gameStarted || g.gameOver then (g, .rejected "Game not in progress")
  else
    match g.players.get? g.currentPlayerIndex with
    | none => (g, .rejected "Not your turn")
    | some currentPlayer =>
      if currentPlayer.id != playerId then (g, .rejected "Not your turn")
      else
        match g.lastDiceRoll with
        | none => (g, .rejected "Roll dice first")
        | some diceValue =>
          if !(getMovableTokens g currentPlayer diceValue).contains tokenIndex then
            (g, .rejected "Cannot move this token")
          else moveTokenCore g currentPlayer tokenIndex diceValue

/-- `resetMissedTurns` / `incrementMissedTurns` bookkeeping: the JS object
`playerMissedTurns` is an association list here. -/
def lookupCount (m : List (String × Nat)) (pid : String) : Nat :=
  match m.find? (fun e => e.1 == pid) with
  | some e => e.2
  | none => 0

/-- Store a missed-turn count for a player. -/
def setCount (m : List (String × Nat)) (pid : String) (v : Nat) : List (String × Nat) :=
  if m.any (fun e => e.1 == pid) then
    m.map (fun e => if e.1 == pid then (e.1, v) else e)
  else m ++ [(pid, v)]

/-- Token reset performed by `eliminatePlayer` (gameLogic.js:1724-1728):
back to base, out of the home stretch, and marked finished ("out").
`homeStretchPosition` is left untouched. -/
def resetTokenForElimination (t : Token) : Token :=
  { t with position := -1, inHomeStretch := false, finished := true }

/-- `eliminatePlayer` (gameLogic.js:1718-1731). -/
def eliminatePlayer (g : LudoGame) (pid : String) : LudoGame :=
  if g.eliminatedPlayers.contains pid then g
  else
    { g with
      eliminatedPlayers := g.eliminatedPlayers ++ [pid]
      players := g.players.map (fun p =>
        if p.id == pid then { p with tokens := p.tokens.map resetTokenForElimination }
        else p) }

/-- `incrementMissedTurns` of the final revision (gameLogic.js:1704-1716):
only tracks human players, eliminates at 5 missed turns. -/
def incrementMissedTurns (g : LudoGame) (pid : String) : LudoGame × Bool :=
  match g.players.find? (fun p => p.id == pid) with
  | none => (g, false)
  | some player =>
    if player.isRobot then (g, false)
    else
      let newCount := lookupCount g.playerMissedTurns pid + 1
      let g1 := { g with playerMissedTurns := setCount g.playerMissedTurns pid newCount }
      if newCount ≥ 5 then (eliminatePlayer g1 pid, true)
      else (g1, false)

/-- `resetMissedTurns` (gameLogic.js:1700-1702). -/
def resetMissedTurns (g : LudoGame) (pid : String) : LudoGame :=
  { g with playerMissedTurns := setCount g.playerMissedTurns pid 0 }

/-- `isPlayerEliminated` (gameLogic.js:1733-1735). -/
def isPlayerEliminated (g : LudoGame) (pid : String) : Bool :=
  g.eliminatedPlayers.contains pid

/-- Result of `autoMoveToken`. -/
inductive AutoOutcome
  | rejected
  | noMove
  | moved (result : MoveOutcome)
deriving DecidableEq, Repr

/-- `autoMoveToken` of the final revision (gameLogic.js:1741-1752): if any
token is movable it moves `movable[0]` ("Simple AI: pick first"). -/
def autoMoveToken (g : LudoGame) (pid : String) : LudoGame × AutoOutcome :=
  match g.players.find? (fun p => p.id == pid) with
  | none => (g, .rejected)
  | some player =>
    match g.lastDiceRoll with
    | none => (g, .rejected)
    | some d =>
      match getMovableTokens g player d with
      | [] => (nextTurn { g with lastDiceRoll := none }, .noMove)
      | idx :: _ =>
        let r := moveToken g pid idx
        (r.1, .moved r.2)

/-- `calculateDistanceToHome` from the middle revision (gameLogic.js:1013-1041),
the distance notion of the auto-play heuristic described by the spec. -/
def calculateDistanceToHome (color : Color) (token : Token) : Int :=
  if token.finished then 0
  else if token.inHomeStretch then 5 - token.homeStretchPosition
  else if token.position == -1 then 1000
  else
    let homeEntrance : Int := (HOME_ENTRANCE color : Int)
    if token.position ≤ homeEntrance then homeEntrance - token.position + 5
    else (52 - token.position) + homeEntrance + 5

/-- The token of player `i` at index `j`, for frame statements. -/
def tokenAt (g : LudoGame) (i j : Nat) : Option Token :=
  match g.players.get? i with
  | some p => p.tokens.get? j
  | none => none

/-- The effect of the capture scan on a single token. -/
def captureReset (pos : Int) (t : Token) : Token :=
  if captureCond t pos then { t with position := -1 } else t

/-- Whether `checkCapture` leaves a player's tokens alone: own id, or
teammate color in team mode. -/
def captureExempt (g : LudoGame) (cp : Player) (p : Player) : Bool :=
  p.id == cp.id || (g.teamMode && getTeammateColor g cp.color == some p.color)

/-! ## Concrete games for scenarios, witnesses and counterexamples -/

/-- A token still in base, as `initializeTokens` creates it. -/
def baseToken (i : Nat) : Token :=
  { id := i, position := -1, inHomeStretch := false, homeStretchPosition := -1,
    finished := false }

/-- A fresh two-player solo game: Alice (red) and Bob (yellow), started. -/
def demoGame : LudoGame :=
  (startGame (addPlayer (addPlayer (newLudoGame false) "p1" "Alice").1 "p2" "Bob").1).1

/-- `demoGame` after Bob has missed five turns: Bob is eliminated. -/
def elimGame : LudoGame :=
  (incrementMissedTurns (incrementMissedTurns (incrementMissedTurns
    (incrementMissedTurns (incrementMissedTurns demoGame "p2").1 "p2").1 "p2").1
    "p2").1 "p2").1

/-- A junk player record used as the `getD` default (never reached). -/
def defaultPlayer : Player :=
  { id := "", name := "", color := .red, tokens := [], finishedTokens := 0,
    isRobot := false }

/-- Bob's player record in `elimGame`. -/
def elimBob : Player :=
  (elimGame.players.get? 1).getD defaultPlayer

/-- Game states reachable through the public API of `LudoGame`: construction,
lobby operations, starting, rolling (with a die value in 1..6), moving,
auto-play, and the missed-turn bookkeeping. -/
inductive Reachable : LudoGame → Prop where
  | new (teamMode : Bool) : Reachable (newLudoGame teamMode)
  | addP {g : LudoGame} (pid pname : String) (h : Reachable g) :
      Reachable (addPlayer g pid pname).1
  | addR {g : LudoGame} (rid rname : String) (h : Reachable g) :
      Reachable (addRobot g rid rname).1
  | removeP {g : LudoGame} (pid : String) (h : Reachable g) :
      Reachable (removePlayer g pid).1
  | start {g : LudoGame} (h : Reachable g) : Reachable (startGame g).1
  | roll {g : LudoGame} (pid : String) (d : Nat) (h1 : 1 ≤ d) (h6 : d ≤ 6)
      (h : Reachable g) : Reachable (rollDice g pid d).1
  | move {g : LudoGame} (pid : String) (idx : Nat) (h : Reachable g) :
      Reachable (moveToken g pid idx).1
  | auto {g : LudoGame} (pid : String) (h : Reachable g) :
      Reachable (autoMoveToken g pid).1
  | missed {g : LudoGame} (pid : String) (h : Reachable g) :
      Reachable (incrementMissedTurns g pid).1
  | resetM {g : LudoGame} (pid : String) (h : Reachable g) :
      Reachable (resetMissedTurns g pid)

/-- `elimGame` after Alice has also missed five turns: both players are
eliminated, and the turn pointer cannot move off the eliminated Alice. -/
def elimGame2 : LudoGame :=
  (incrementMissedTurns (incrementMissedTurns (incrementMissedTurns
    (incrementMissedTurns (incrementMissedTurns elimGame "p1").1 "p1").1 "p1").1
    "p1").1 "p1").1

/-- `elimGame2` after the eliminated Alice rolls a 6 — the roll is accepted,
because `rollDice` never consults the eliminated list. -/
def c7Game : LudoGame := (rollDice elimGame2 "p1" 6).1

/-- The legitimately finished red token of `finishedTokenGame`. -/
def c7FinTok : Token :=
  { id := 0, position := 49, inHomeStretch := true, homeStretchPosition := 5,
    finished := true }

/-- `demoGame` after a 6 has been rolled: Alice may bring a token out of base. -/
def baseExitGame : LudoGame :=
  { demoGame with lastDiceRoll := some 6 }

/-- The red token brought out of base by the C10 witness move. -/
def c10Tok : Token :=
  { id := 0, position := 0, inHomeStretch := false, homeStretchPosition := -1,
    finished := false }

/-- `demoGame` after Bob has missed four turns: one more eliminates him. -/
def demoGame4 : LudoGame :=
  (incrementMissedTurns (incrementMissedTurns (incrementMissedTurns
    (incrementMissedTurns demoGame "p2").1 "p2").1 "p2").1 "p2").1

/-- Bob's player record in `demoGame4`. -/
def demoBob4 : Player :=
  (demoGame4.players.get? 1).getD defaultPlayer

/-- Scenario B of the spec: Alice's red token 0 sits on square 47, three squares
before the red home entrance 50, and a 5 has been rolled. -/
def scenarioBGame : LudoGame :=
  { players :=
      [{ id := "p1", name := "Alice", color := .red,
         tokens := [{ id := 0, position := 47, inHomeStretch := false,
                      homeStretchPosition := -1, finished := false },
                    baseToken 1, baseToken 2, baseToken 3],
         finishedTokens := 0, isRobot := false },
       { id := "p2", name := "Bob", color := .yellow,
         tokens := [baseToken 0, baseToken 1, baseToken 2, baseToken 3],
         finishedTokens := 0, isRobot := false }],
    currentPlayerIndex := 0, gameStarted := true, gameOver := false, winner := none,
    lastDiceRoll := some 5, consecutiveSixes := 0, teamMode := false, teams := none,
    finishedPlayers := [], playerMissedTurns := [], eliminatedPlayers := [] }

/-- A game for the auto-play counterexample: Alice's token 0 is far from home on
square 20, token 1 is in the red home stretch at position 0, and a 1 has been
rolled. -/
def autoPlayGame : LudoGame :=
  { players :=
      [{ id := "p1", name := "Alice", color := .red,
         tokens := [{ id := 0, position := 20, inHomeStretch := false,
                      homeStretchPosition := -1, finished := false },
                    { id := 1, position := 49, inHomeStretch := true,
                      homeStretchPosition := 0, finished := false },
                    baseToken 2, baseToken 3],
         finishedTokens := 0, isRobot := false },
       { id := "p2", name := "Bob", color := .yellow,
         tokens := [baseToken 0, baseToken 1, baseToken 2, baseToken 3],
         finishedTokens := 0, isRobot := false }],
    currentPlayerIndex := 0, gameStarted := true, gameOver := false, winner := none,
    lastDiceRoll := some 1, consecutiveSixes := 0, teamMode := false, teams := none,
    finishedPlayers := [], playerMissedTurns := [], eliminatedPlayers := [] }

/-- Alice's player record in `demoGame`. -/
def demoAlice : Player := (demoGame.players.get? 0).getD defaultPlayer

/-- Alice's player record in `autoPlayGame`. -/
def autoAlice : Player := (autoPlayGame.players.get? 0).getD defaultPlayer

/-- A game with a legitimately finished red token (home stretch completed). -/
def finishedTokenGame : LudoGame :=
  { players :=
      [{ id := "p1", name := "Alice", color := .red,
         tokens := [{ id := 0, position := 49, inHomeStretch := true,
                      homeStretchPosition := 5, finished := true },
                    baseToken 1, baseToken 2, baseToken 3],
         finishedTokens := 1, isRobot := false },
       { id := "p2", name := "Bob", color := .yellow,
         tokens := [baseToken 0, baseToken 1, baseToken 2, baseToken 3],
         finishedTokens := 0, isRobot := false }],
    currentPlayerIndex := 0, gameStarted := true, gameOver := false, winner := none,
    lastDiceRoll := none, consecutiveSixes := 0, teamMode := false, teams := none,
    finishedPlayers := [], playerMissedTurns := [], eliminatedPlayers := [] }

/-- Scenario C of the spec: Bob's yellow tokens 0 and 1 are stacked on the
non-safe square 5, Alice's red token 0 is on square 2 with a 3 rolled. -/
def captureGame : LudoGame :=
  { players :=
      [{ id := "p1", name := "Alice", color := .red,
         tokens := [{ id := 0, position := 2, inHomeStretch := false,
                      homeStretchPosition := -1, finished := false },
                    baseToken 1, baseToken 2, baseToken 3],
         finishedTokens := 0, isRobot := false },
       { id := "p2", name := "Bob", color := .yellow,
         tokens := [{ id := 0, position := 5, inHomeStretch := false,
                      homeStretchPosition := -1, finished := false },
                    { id := 1, position := 5, inHomeStretch := false,
                      homeStretchPosition := -1, finished := false },
                    baseToken 2, baseToken 3],
         finishedTokens := 0, isRobot := false }],
    currentPlayerIndex := 0, gameStarted := true, gameOver := false, winner := none,
    lastDiceRoll := some 3, consecutiveSixes := 0, teamMode := false, teams := none,
    finishedPlayers := [], playerMissedTurns := [], eliminatedPlayers := [] }

/-- Alice's player record in `captureGame`. -/
def captureAlice : Player := (captureGame.players.get? 0).getD defaultPlayer

/-! ## General list lemmas -/

lemma find?_range'_eq_some {p : Nat → Bool} :
    ∀ (n s j : Nat), s ≤ j → j < s + n → p j = true →
      (∀ k, s ≤ k → k < j → p k = false) → (List.range' s n).find? p = some j := by
  intro n
  induction n with
  | zero => intro s j h1 h2 _ _; omega
  | succ n ih =>
    intro s j h1 h2 hp hmin
    rw [List.range'_succ]
    by_cases hsj : j = s
    · subst hsj; rw [List.find?_cons_of_pos _ hp]
    · have hps : p s = false := hmin s le_rfl (by omega)
      rw [List.find?_cons_of_neg _ (by simp [hps])]
      exact ih (s + 1) j (by omega) (by omega) hp (fun k hk1 hk2 => hmin k (by omega) hk2)

lemma find?_range_eq_some {p : Nat → Bool} {n j : Nat} (hj : j < n) (hp : p j = true)
    (hmin : ∀ k, k < j → p k = false) : (List.range n).find? p = some j := by
  rw [List.range_eq_range']
  exact find?_range'_eq_some n 0 j (Nat.zero_le _) (by omega) hp (fun k _ hk => hmin k hk)

/-! ## Home-stretch entry arithmetic (claim C1) -/

/-- `willEnterHomeStretch` detects exactly the rolls for which one of the `d`
single-square steps lands on the entrance (a single-square walk that passes a
square necessarily lands on it at the previous step). -/
lemma willEnter_iff {pos ent d : Nat} (hpos : pos < 52) (hent : ent < 52) (hd : d ≤ 6) :
    willEnterHomeStretch pos d ent = true ↔
      ∃ i, 1 ≤ i ∧ i ≤ d ∧ (pos + i) % 52 = ent := by
  unfold willEnterHomeStretch
  rw [List.any_eq_true]
  constructor
  · rintro ⟨j, hj, hcond⟩
    rw [List.mem_range] at hj
    simp only [Bool.or_eq_true, beq_iff_eq] at hcond
    rcases hcond with h | hcond
    · exact ⟨j + 1, by omega, by omega, h⟩
    · split at hcond
      · simp only [Bool.and_eq_true, decide_eq_true_eq, gt_iff_lt, ge_iff_le] at hcond
        exact ⟨ent - pos, by omega, by omega, by omega⟩
      · simp only [Bool.and_eq_true, decide_eq_true_eq, gt_iff_lt, ge_iff_le] at hcond
        exact ⟨ent + 52 - pos, by omega, by omega, by omega⟩
  · rintro ⟨i, hi1, hi2, hieq⟩
    refine ⟨i - 1, List.mem_range.mpr (by omega), ?_⟩
    have h' : (pos + (i - 1 + 1)) % 52 = ent := by omega
    simp [h']

/-- When step `i` of the walk lands on the entrance, `calculateHomeStretchSteps`
returns the remaining `d - i` steps. -/
lemma calcSteps_eq {pos ent d i : Nat} (hpos : pos < 52) (hent : ent < 52) (hd : d ≤ 6)
    (hi1 : 1 ≤ i) (hi2 : i ≤ d) (heq : (pos + i) % 52 = ent) :
    calculateHomeStretchSteps pos d ent = d - i := by
  unfold calculateHomeStretchSteps
  rw [find?_range_eq_some (p := fun j =>
      let iStep := j + 1
      let nextPos := (pos + iStep) % 52
      nextPos == ent ||
        (pos < ent && nextPos ≥ ent) ||
        (pos > ent && nextPos < pos && nextPos ≥ ent)) (j := i - 1) (by omega) ?_ ?_]
  · simp only []
    omega
  · have h' : (pos + (i - 1 + 1)) % 52 = ent := by omega
    simp [h']
  · intro k hk
    by_contra hpk
    rw [Bool.not_eq_false] at hpk
    simp only [Bool.or_eq_true, Bool.and_eq_true, beq_iff_eq, decide_eq_true_eq,
      gt_iff_lt, ge_iff_le] at hpk
    rcases hpk with h | ⟨h1, h2⟩ | ⟨h1, h2, h3⟩ <;> omega

/-! ## The movable-token set (claims C2, C7) -/

lemma mem_movableTokensAux {d : Nat} :
    ∀ (ts : List Token) (s i : Nat),
      i ∈ movableTokensAux d ts s ↔
        ∃ j t, i = s + j ∧ ts.get? j = some t ∧ movableCond t d = true := by
  intro ts
  induction ts with
  | nil =>
    intro s i
    simp [movableTokensAux]
  | cons t rest ih =>
    intro s i
    unfold movableTokensAux
    by_cases hc : movableCond t d = true
    · rw [if_pos hc]
      simp only [List.mem_cons]
      constructor
      · rintro (rfl | hmem)
        · exact ⟨0, t, by omega, rfl, hc⟩
        · obtain ⟨j, u, rfl, hg, hcond⟩ := (ih (s + 1) i).mp hmem
          exact ⟨j + 1, u, by omega, by simpa using hg, hcond⟩
      · rintro ⟨j, u, hij, hg, hcond⟩
        cases j with
        | zero =>
          left
          omega
        | succ j =>
          right
          refine (ih (s + 1) i).mpr ⟨j, u, by omega, by simpa using hg, hcond⟩
    · rw [if_neg hc]
      rw [ih (s + 1) i]
      constructor
      · rintro ⟨j, u, rfl, hg, hcond⟩
        exact ⟨j + 1, u, by omega, by simpa using hg, hcond⟩
      · rintro ⟨j, u, hij, hg, hcond⟩
        cases j with
        | zero =>
          exfalso
          simp only [List.get?_cons_zero, Option.some_inj] at hg
          subst hg
          exact hc hcond
        | succ j =>
          exact ⟨j, u, by omega, by simpa using hg, hcond⟩

/-- The index set returned by `getMovableTokens`, for a target player who is
not recorded as finished. -/
lemma mem_getMovableTokens {g : LudoGame} {p : Player} {d i : Nat}
    (hfin : isPlayerFinished g (controlledPlayer g p).id = false) :
    i ∈ getMovableTokens g p d ↔
      ∃ t, (controlledPlayer g p).tokens.get? i = some t ∧ movableCond t d = true := by
  unfold getMovableTokens
  rw [if_neg (by simp [hfin])]
  rw [mem_movableTokensAux]
  constructor
  · rintro ⟨j, t, hij, hg, hc⟩
    exact ⟨t, by rwa [show j = i by omega] at hg, hc⟩
  · rintro ⟨t, hg, hc⟩
    exact ⟨i, t, by omega, hg, hc⟩

/-- The per-token movability test, phrased as the claim's three-way
disjunction. -/
lemma movableCond_iff {t : Token} {d : Nat} :
    movableCond t d = true ↔
      ((t.position = -1 ∧ d = 6) ∨
       (t.position ≠ -1 ∧ t.finished = false ∧ t.inHomeStretch = true ∧
         t.homeStretchPosition + (d : Int) ≤ 5) ∨
       (t.position ≠ -1 ∧ t.finished = false ∧ t.inHomeStretch = false)) := by
  by_cases hpos : t.position = -1
  · simp [movableCond, hpos]
  · by_cases hfin : t.finished
    · simp [movableCond, hpos, hfin]
    · by_cases hhs : t.inHomeStretch
      · simp [movableCond, hpos, hfin, hhs]
      · simp [movableCond, hpos, hfin, hhs]

/-- A finished token that is not parked in base is never movable. -/
lemma movableCond_finished {t : Token} {d : Nat} (hfin : t.finished = true)
    (hpos : t.position ≠ -1) : movableCond t d = false := by
  by_contra h
  rw [Bool.not_eq_false, movableCond_iff] at h
  rcases h with ⟨h1, _⟩ | ⟨_, h2, _⟩ | ⟨_, h2, _⟩
  · exact hpos h1
  · rw [hfin] at h2; cases h2
  · rw [hfin] at h2; cases h2

/-! ## Capture resolution (claims C4, C7) -/

lemma capturePlayerTokens_fst (pos : Int) :
    ∀ (ts : List Token) (s : Nat),
      (capturePlayerTokens pos ts s).1 = ts.map (captureReset pos) := by
  intro ts
  induction ts with
  | nil => intro s; rfl
  | cons t rest ih =>
    intro s
    unfold capturePlayerTokens
    by_cases hc : captureCond t pos = true
    · simp [hc, ih (s + 1), captureReset]
    · simp only [Bool.not_eq_true] at hc
      simp [hc, ih (s + 1), captureReset]

lemma mem_capturePlayerTokens_snd (pos : Int) :
    ∀ (ts : List Token) (s i : Nat),
      i ∈ (capturePlayerTokens pos ts s).2 ↔
        ∃ j t, i = s + j ∧ ts.get? j = some t ∧ captureCond t pos = true := by
  intro ts
  induction ts with
  | nil =>
    intro s i
    simp [capturePlayerTokens]
  | cons t rest ih =>
    intro s i
    unfold capturePlayerTokens
    by_cases hc : captureCond t pos = true
    · simp only [hc, if_pos, List.mem_cons]
      constructor
      · rintro (rfl | hmem)
        · exact ⟨0, t, by omega, rfl, hc⟩
        · obtain ⟨j, u, rfl, hg, hcond⟩ := (ih (s + 1) i).mp hmem
          exact ⟨j + 1, u, by omega, by simpa using hg, hcond⟩
      · rintro ⟨j, u, hij, hg, hcond⟩
        cases j with
        | zero => left; omega
        | succ j =>
          right
          exact (ih (s + 1) i).mpr ⟨j, u, by omega, by simpa using hg, hcond⟩
    · rw [if_neg hc]
      rw [ih (s + 1) i]
      constructor
      · rintro ⟨j, u, rfl, hg, hcond⟩
        exact ⟨j + 1, u, by omega, by simpa using hg, hcond⟩
      · rintro ⟨j, u, hij, hg, hcond⟩
        cases j with
        | zero =>
          exfalso
          simp only [List.get?_cons_zero, Option.some_inj] at hg
          subst hg
          exact hc hcond
        | succ j =>
          exact ⟨j, u, by omega, by simpa using hg, hcond⟩

/-- The player list after `checkCapture`. -/
lemma checkCapture_players (g : LudoGame) (cp : Player) (pos : Int) :
    (checkCapture g cp pos).1.players =
      if SAFE_POSITIONS.contains pos then g.players
      else g.players.map (fun p =>
        if captureExempt g cp p then p
        else { p with tokens := p.tokens.map (captureReset pos) }) := by
  by_cases hs : SAFE_POSITIONS.contains pos = true
  · simp only [checkCapture, hs, if_true]
  · rw [checkCapture]
    rw [if_neg hs, if_neg hs]
    simp only []
    rw [List.map_map]
    apply List.map_congr_left
    intro p _
    simp only [Function.comp_apply]
    by_cases h1 : (p.id == cp.id) = true
    · rw [if_pos h1, if_pos (show captureExempt g cp p = true by simp [captureExempt, h1])]
    · rw [Bool.not_eq_true] at h1
      by_cases h2 : (g.teamMode && (getTeammateColor g cp.color == some p.color)) = true
      · rw [if_neg (by simp [h1]), if_pos h2,
          if_pos (show captureExempt g cp p = true by simp [captureExempt, h2])]
      · rw [Bool.not_eq_true] at h2
        rw [if_neg (by simp [h1]), if_neg (by simp [h2]),
          if_neg (show ¬captureExempt g cp p = true by simp [captureExempt, h1, h2])]
        simp [capturePlayerTokens_fst]

/-- The capture list produced by `checkCapture` (read as `[]` when the source
returns `null`): exactly the non-exempt tokens sitting on a non-safe landing
square, not in a home stretch and not finished. -/
lemma checkCapture_captured_mem (g : LudoGame) (cp : Player) (pos : Int) (ci : CaptureInfo) :
    ci ∈ (checkCapture g cp pos).2.getD [] ↔
      (SAFE_POSITIONS.contains pos = false ∧
       ∃ p ∈ g.players, captureExempt g cp p = false ∧
         ci.playerId = p.id ∧ ci.playerName = p.name ∧ ci.playerColor = p.color ∧
         ∃ t, p.tokens.get? ci.tokenIndex = some t ∧ captureCond t pos = true) := by
  by_cases hs : SAFE_POSITIONS.contains pos = true
  · rw [checkCapture, if_pos hs]
    constructor
    · intro h
      simp at h
    · rintro ⟨hc, -⟩
      rw [hs] at hc
      cases hc
  · have hsf : SAFE_POSITIONS.contains pos = false := by
      rwa [Bool.not_eq_true] at hs
    rw [checkCapture, if_neg hs]
    simp only []
    have hgetD : ∀ (l : List CaptureInfo), (if l.isEmpty then none else some l).getD [] = l := by
      intro l
      by_cases he : l.isEmpty = true
      · rw [if_pos he, Option.getD_none, (List.isEmpty_iff.mp he)]
      · rw [if_neg he, Option.getD_some]
    rw [hgetD, List.map_map, List.mem_flatten]
    constructor
    · rintro ⟨s, hsmem, hci⟩
      rw [List.mem_map] at hsmem
      obtain ⟨p, hp, rfl⟩ := hsmem
      refine ⟨hsf, p, hp, ?_⟩
      simp only [Function.comp_apply] at hci
      by_cases h1 : (p.id == cp.id) = true
      · rw [if_pos h1] at hci
        simp at hci
      · by_cases h2 : (g.teamMode && (getTeammateColor g cp.color == some p.color)) = true
        · rw [if_neg h1, if_pos h2] at hci
          simp at hci
        · rw [if_neg h1, if_neg h2] at hci
          simp only [List.mem_map] at hci
          obtain ⟨i, hi, hci'⟩ := hci
          obtain ⟨j, t, hij, hg, hcond⟩ := (mem_capturePlayerTokens_snd pos p.tokens 0 i).mp hi
          refine ⟨?_, ?_, ?_, ?_, t, ?_, hcond⟩
          · rw [Bool.not_eq_true] at h1 h2
            simp [captureExempt, h1, h2]
          · rw [← hci']
          · rw [← hci']
          · rw [← hci']
          · rw [← hci']
            simpa [show j = i by omega] using hg
    · rintro ⟨_, p, hp, hex, hid, hname, hcol, t, hg, hcond⟩
      refine ⟨_, List.mem_map.mpr ⟨p, hp, rfl⟩, ?_⟩
      simp only [Function.comp_apply]
      have h1 : (p.id == cp.id) = false := by
        have := hex
        unfold captureExempt at this
        rcases Bool.or_eq_false_iff.mp this with ⟨ha, _⟩
        exact ha
      have h2 : (g.teamMode && (getTeammateColor g cp.color == some p.color)) = false := by
        rcases Bool.or_eq_false_iff.mp (by unfold captureExempt at hex; exact hex) with ⟨_, hb⟩
        exact hb
      rw [if_neg (by simp [h1]), if_neg (by simp [h2])]
      simp only [List.mem_map]
      refine ⟨ci.tokenIndex, ?_, ?_⟩
      · exact (mem_capturePlayerTokens_snd pos p.tokens 0 ci.tokenIndex).mpr
          ⟨ci.tokenIndex, t, by omega, hg, hcond⟩
      · cases ci
        simp_all

/-! ## Turn advancement skips eliminated players (claims C3, C5, C6) -/

lemma find?_range'_min {p : Nat → Bool} :
    ∀ (n s : Nat), (∃ j, s ≤ j ∧ j < s + n ∧ p j = true) →
      ∃ j₁, (List.range' s n).find? p = some j₁ ∧ s ≤ j₁ ∧ j₁ < s + n ∧ p j₁ = true ∧
        ∀ k, s ≤ k → k < j₁ → p k = false := by
  intro n
  induction n with
  | zero => rintro s ⟨j, h1, h2, _⟩; omega
  | succ n ih =>
    rintro s ⟨j, h1, h2, hp⟩
    rw [List.range'_succ]
    by_cases hps : p s = true
    · exact ⟨s, by rw [List.find?_cons_of_pos _ hps], le_rfl, by omega, hps,
        by intro k hk1 hk2; omega⟩
    · have hjs : j ≠ s := by rintro rfl; exact hps hp
      obtain ⟨j₁, hfind, hj₁s, hj₁n, hpj₁, hmin⟩ := ih (s + 1) ⟨j, by omega, by omega, hp⟩
      refine ⟨j₁, ?_, by omega, by omega, hpj₁, ?_⟩
      · rw [List.find?_cons_of_neg _ hps]
        exact hfind
      · intro k hk1 hk2
        by_cases hks : k = s
        · subst hks
          rwa [Bool.not_eq_true] at hps
        · exact hmin k (by omega) hk2

lemma find?_range_min {p : Nat → Bool} {n j : Nat} (hj : j < n) (hp : p j = true) :
    ∃ j₁, (List.range n).find? p = some j₁ ∧ j₁ < n ∧ p j₁ = true ∧
      ∀ k, k < j₁ → p k = false := by
  rw [List.range_eq_range']
  obtain ⟨j₁, hfind, _, hj₁n, hpj₁, hmin⟩ :=
    find?_range'_min n 0 ⟨j, Nat.zero_le _, by omega, hp⟩
  exact ⟨j₁, hfind, by omega, hpj₁, fun k hk => hmin k (Nat.zero_le _) hk⟩

/-- The circular walk `j ↦ (start + j + 1) % n` reaches every index below `n`
within `n` steps. -/
lemma exists_walk_hit {n i : Nat} (start : Nat) (hn : 0 < n) (hi : i < n) :
    ∃ j, j < n ∧ (start + j + 1) % n = i := by
  obtain ⟨q, hq⟩ : ∃ q, q * n + (start + 1) % n = start + 1 :=
    ⟨(start + 1) / n, by rw [Nat.mul_comm]; exact Nat.div_add_mod _ _⟩
  have hs' : (start + 1) % n < n := Nat.mod_lt _ hn
  by_cases hc : (start + 1) % n ≤ i
  · refine ⟨i - (start + 1) % n, by omega, ?_⟩
    rw [show start + (i - (start + 1) % n) + 1 = i + q * n by omega,
      Nat.add_mul_mod_self_right]
    exact Nat.mod_eq_of_lt hi
  · refine ⟨i + n - (start + 1) % n, by omega, ?_⟩
    rw [show start + (i + n - (start + 1) % n) + 1 = (i + n) + q * n by omega,
      Nat.add_mul_mod_self_right, Nat.add_mod_right]
    exact Nat.mod_eq_of_lt hi

/-- As long as some non-eliminated player remains, the do-while loop of
`nextTurn` always selects a non-eliminated player. -/
lemma nextTurnIndex_spec {players : List Player} {eliminated : List String} (start : Nat)
    (hex : ∃ p ∈ players, eliminated.contains p.id = false) :
    ∃ q, players.get? (nextTurnIndex players eliminated start) = some q ∧
      eliminated.contains q.id = false := by
  obtain ⟨p, hpmem, hpe⟩ := hex
  obtain ⟨i, hgi⟩ := List.mem_iff_get?.mp hpmem
  have hi : i < players.length := by
    rcases List.get?_eq_some.mp hgi with ⟨h, _⟩
    exact h
  have hn : 0 < players.length := by omega
  have helimi : eliminatedAt players eliminated i = false := by
    unfold eliminatedAt
    rw [hgi]
    exact hpe
  obtain ⟨j₀, hj₀n, hj₀⟩ := exists_walk_hit start hn hi
  have hpred₀ : (fun j => !eliminatedAt players eliminated ((start + j + 1) % players.length) ||
      (start + j + 1) % players.length == start) j₀ = true := by
    simp only [Bool.or_eq_true, Bool.not_eq_true']
    left
    rw [hj₀]
    exact helimi
  obtain ⟨j₁, hfind, hj₁n, hpj₁, hmin⟩ := find?_range_min
    (p := fun j => !eliminatedAt players eliminated ((start + j + 1) % players.length) ||
      (start + j + 1) % players.length == start) hj₀n hpred₀
  simp only [Bool.or_eq_true, Bool.not_eq_true'] at hpj₁
  have hresult : nextTurnIndex players eliminated start = (start + j₁ + 1) % players.length := by
    unfold nextTurnIndex
    rw [hfind]
  have hidxlt : (start + j₁ + 1) % players.length < players.length := Nat.mod_lt _ hn
  rcases hpj₁ with hgood | hstart
  · -- the loop stopped on a non-eliminated index
    rcases hq : players.get? ((start + j₁ + 1) % players.length) with _ | q
    · rw [List.get?_eq_none] at hq
      omega
    · refine ⟨q, by rw [hresult]; exact hq, ?_⟩
      unfold eliminatedAt at hgood
      rw [hq] at hgood
      exact hgood
  · -- the loop wrapped all the way around to `start`
    rw [beq_iff_eq] at hstart
    have hstartlt : start < players.length := hstart ▸ hidxlt
    -- then j₁ must be the last step of the cycle
    have hj₁eq : j₁ = players.length - 1 := by
      rcases Nat.lt_or_ge (start + j₁ + 1) players.length with hlt | hge
      · rw [Nat.mod_eq_of_lt hlt] at hstart
        omega
      · have h2 : start + j₁ + 1 - players.length < players.length := by omega
        rw [Nat.mod_eq_sub_mod hge, Nat.mod_eq_of_lt h2] at hstart
        omega
    -- every other index was seen and was eliminated, so `i` must be `start`
    by_cases his : i = start
    · -- then `start` itself is not eliminated: the result index is fine
      rcases hq : players.get? ((start + j₁ + 1) % players.length) with _ | q
      · rw [List.get?_eq_none] at hq
        omega
      · refine ⟨q, by rw [hresult]; exact hq, ?_⟩
        rw [hstart, ← his, hgi] at hq
        cases hq
        exact hpe
    · -- `i ≠ start` was visited at an earlier step, contradicting its liveness
      exfalso
      obtain ⟨k, hkn, hk⟩ := exists_walk_hit start hn hi
      have hkne : k ≠ players.length - 1 := by
        rintro rfl
        have : (start + (players.length - 1) + 1) % players.length = start := by
          rw [show start + (players.length - 1) + 1 = start + players.length by omega,
            Nat.add_mod_right]
          exact Nat.mod_eq_of_lt hstartlt
        omega
      have hkmin := hmin k (by omega)
      rw [Bool.or_eq_false_iff] at hkmin
      rcases hkmin with ⟨helim, -⟩
      rw [hk, helimi] at helim
      simp at helim

/-! ## Rejected operations leave the state untouched (claim C8) -/

lemma moveTokenCore_eq_none {g : LudoGame} {cp : Player} {idx d : Nat}
    (hget : (controlledPlayer g cp).tokens.get? idx = none) :
    moveTokenCore g cp idx d = (g, .rejected "Cannot move this token") := by
  unfold moveTokenCore
  rw [hget]

lemma moveTokenCore_eq_some {g : LudoGame} {cp : Player} {idx d : Nat} {t : Token}
    (hget : (controlledPlayer g cp).tokens.get? idx = some t) :
    moveTokenCore g cp idx d = moveTokenApply g (controlledPlayer g cp) idx d t := by
  unfold moveTokenCore
  rw [hget]

lemma moveTokenCore_rejected {g : LudoGame} {cp : Player} {idx d : Nat} {e : String}
    (h : (moveTokenCore g cp idx d).2 = MoveOutcome.rejected e) :
    (moveTokenCore g cp idx d).1 = g := by
  rcases hget : (controlledPlayer g cp).tokens.get? idx with _ | t
  · rw [moveTokenCore_eq_none hget]
  · rw [moveTokenCore_eq_some hget] at h
    exfalso
    unfold moveTokenApply at h
    simp only [] at h
    exact MoveOutcome.noConfusion h

lemma rollDice_rejected {g : LudoGame} {pid : String} {d : Nat} {e : String}
    (h : (rollDice g pid d).2 = RollOutcome.rejected e) : (rollDice g pid d).1 = g := by
  have key : ∀ (res : LudoGame × RollOutcome), rollDice g pid d = res →
      res.2 = RollOutcome.rejected e → res.1 = g := by
    intro res hres hr2
    unfold rollDice at hres
    repeat' (first | split at hres | simp only [] at hres)
    all_goals first
      | (rw [← hres]; done)
      | (rw [← hres] at hr2; simp at hr2)
  exact key _ rfl h

lemma moveToken_rejected {g : LudoGame} {pid : String} {idx : Nat} {e : String}
    (h : (moveToken g pid idx).2 = MoveOutcome.rejected e) : (moveToken g pid idx).1 = g := by
  have key : ∀ (res : LudoGame × MoveOutcome), moveToken g pid idx = res →
      res.2 = MoveOutcome.rejected e → res.1 = g := by
    intro res hres hr2
    unfold moveToken at hres
    repeat' split at hres
    all_goals first
      | (rw [← hres]; done)
      | (rw [← hres] at hr2 ⊢; exact moveTokenCore_rejected hr2)
  exact key _ rfl h

/-! ## Projection facts about the move pipeline (claims C3, C7, C10) -/

lemma nextTurn_gameOver (g : LudoGame) : (nextTurn g).gameOver = g.gameOver := rfl

lemma nextTurn_players (g : LudoGame) : (nextTurn g).players = g.players := rfl

lemma nextTurn_lastDiceRoll (g : LudoGame) : (nextTurn g).lastDiceRoll = none := rfl

lemma nextTurn_consecutiveSixes (g : LudoGame) : (nextTurn g).consecutiveSixes = 0 := rfl

lemma nextTurn_currentPlayerIndex (g : LudoGame) :
    (nextTurn g).currentPlayerIndex =
      nextTurnIndex g.players g.eliminatedPlayers g.currentPlayerIndex := rfl

lemma markPlayerFinished_players (g : LudoGame) (pid : String) :
    (markPlayerFinished g pid).players = g.players := by
  unfold markPlayerFinished
  split <;> rfl

lemma markPlayerFinished_currentPlayerIndex (g : LudoGame) (pid : String) :
    (markPlayerFinished g pid).currentPlayerIndex = g.currentPlayerIndex := by
  unfold markPlayerFinished
  split <;> rfl

lemma markPlayerFinished_eliminatedPlayers (g : LudoGame) (pid : String) :
    (markPlayerFinished g pid).eliminatedPlayers = g.eliminatedPlayers := by
  unfold markPlayerFinished
  split <;> rfl

lemma markPlayerFinished_consecutiveSixes (g : LudoGame) (pid : String) :
    (markPlayerFinished g pid).consecutiveSixes = g.consecutiveSixes := by
  unfold markPlayerFinished
  split <;> rfl

lemma checkCapture_currentPlayerIndex (g : LudoGame) (cp : Player) (pos : Int) :
    (checkCapture g cp pos).1.currentPlayerIndex = g.currentPlayerIndex := by
  unfold checkCapture
  split <;> rfl

lemma checkCapture_eliminatedPlayers (g : LudoGame) (cp : Player) (pos : Int) :
    (checkCapture g cp pos).1.eliminatedPlayers = g.eliminatedPlayers := by
  unfold checkCapture
  split <;> rfl

lemma checkCapture_consecutiveSixes (g : LudoGame) (cp : Player) (pos : Int) :
    (checkCapture g cp pos).1.consecutiveSixes = g.consecutiveSixes := by
  unfold checkCapture
  split <;> rfl

lemma mtCap_fst_currentPlayerIndex (g : LudoGame) (mp : Player) (i d : Nat) (t : Token) :
    (mtCap g mp i d t).1.currentPlayerIndex = g.currentPlayerIndex := by
  unfold mtCap
  split
  · rw [checkCapture_currentPlayerIndex]
    rfl
  · rfl

lemma mtCap_fst_eliminatedPlayers (g : LudoGame) (mp : Player) (i d : Nat) (t : Token) :
    (mtCap g mp i d t).1.eliminatedPlayers = g.eliminatedPlayers := by
  unfold mtCap
  split
  · rw [checkCapture_eliminatedPlayers]
    rfl
  · rfl

lemma mtCap_fst_consecutiveSixes (g : LudoGame) (mp : Player) (i d : Nat) (t : Token) :
    (mtCap g mp i d t).1.consecutiveSixes = g.consecutiveSixes := by
  unfold mtCap
  split
  · rw [checkCapture_consecutiveSixes]
    rfl
  · rfl

lemma mtG4_currentPlayerIndex (g : LudoGame) (mp : Player) (i d : Nat) (t : Token) :
    (mtG4 g mp i d t).currentPlayerIndex = g.currentPlayerIndex := by
  show (mtG3 g mp i d t).currentPlayerIndex = g.currentPlayerIndex
  unfold mtG3
  split
  · rw [markPlayerFinished_currentPlayerIndex]
    exact mtCap_fst_currentPlayerIndex g mp i d t
  · exact mtCap_fst_currentPlayerIndex g mp i d t

lemma mtG4_eliminatedPlayers (g : LudoGame) (mp : Player) (i d : Nat) (t : Token) :
    (mtG4 g mp i d t).eliminatedPlayers = g.eliminatedPlayers := by
  show (mtG3 g mp i d t).eliminatedPlayers = g.eliminatedPlayers
  unfold mtG3
  split
  · rw [markPlayerFinished_eliminatedPlayers]
    exact mtCap_fst_eliminatedPlayers g mp i d t
  · exact mtCap_fst_eliminatedPlayers g mp i d t

lemma mtG4_gameOver (g : LudoGame) (mp : Player) (i d : Nat) (t : Token) :
    (mtG4 g mp i d t).gameOver = (mtGv g mp i d t).1 := rfl

lemma mtG5_gameOver (g : LudoGame) (mp : Player) (i d : Nat) (t : Token) :
    (mtG5 g mp i d t).gameOver = (mtGv g mp i d t).1 := by
  unfold mtG5
  split
  · rw [nextTurn_gameOver, mtG4_gameOver]
  · rw [mtG4_gameOver]

lemma mtG6_gameOver (g : LudoGame) (mp : Player) (i d : Nat) (t : Token) :
    (mtG6 g mp i d t).gameOver = (mtGv g mp i d t).1 := mtG5_gameOver g mp i d t

lemma mtG6_lastDiceRoll (g : LudoGame) (mp : Player) (i d : Nat) (t : Token) :
    (mtG6 g mp i d t).lastDiceRoll = none := rfl

/-- The whole move pipeline only rewrites the player list through
id-preserving per-player updates. -/
lemma mtG4_players_map (g : LudoGame) (mp : Player) (i d : Nat) (t : Token) :
    ∃ f : Player → Player, (∀ p, (f p).id = p.id) ∧
      (mtG4 g mp i d t).players = g.players.map f := by
  have hid1 : ∀ p : Player,
      ((fun p => if p.id == mp.id then mtMover mp i d t else p) p).id = p.id := by
    intro p
    simp only []
    by_cases h : (p.id == mp.id) = true
    · rw [if_pos h]
      have hpe : p.id = mp.id := beq_iff_eq.mp h
      rw [hpe]
      rfl
    · rw [if_neg h]
  have hG1 : (mtG1 g mp i d t).players =
      g.players.map (fun p => if p.id == mp.id then mtMover mp i d t else p) := rfl
  have hG3 : (mtG3 g mp i d t).players = (mtCap g mp i d t).1.players := by
    unfold mtG3
    split
    · rw [markPlayerFinished_players]
    · rfl
  have hG4 : (mtG4 g mp i d t).players = (mtCap g mp i d t).1.players := hG3
  unfold mtCap at hG4
  split at hG4
  · rw [checkCapture_players] at hG4
    split at hG4
    · exact ⟨_, hid1, by rw [hG4, hG1]⟩
    · rw [hG1, List.map_map] at hG4
      refine ⟨_, ?_, hG4⟩
      intro p
      simp only [Function.comp_apply]
      by_cases hex : captureExempt (mtG1 g mp i d t) (mtMover mp i d t)
          ((fun p => if p.id == mp.id then mtMover mp i d t else p) p) = true
      · rw [if_pos hex]
        exact hid1 p
      · rw [if_neg hex]
        exact hid1 p
  · exact ⟨_, hid1, by rw [hG4, hG1]⟩

lemma nextTurnIndex_map_id {players : List Player} {f : Player → Player}
    (hf : ∀ p, (f p).id = p.id) (eliminated : List String) (start : Nat) :
    nextTurnIndex (players.map f) eliminated start = nextTurnIndex players eliminated start := by
  have helim : ∀ idx, eliminatedAt (players.map f) eliminated idx =
      eliminatedAt players eliminated idx := by
    intro idx
    unfold eliminatedAt
    rw [List.get?_map]
    cases players.get? idx <;> simp [hf]
  unfold nextTurnIndex
  simp only [List.length_map, helim]

/-- The turn bookkeeping performed by a successful `moveToken` body. -/
lemma moveTokenApply_turn {g : LudoGame} {mp : Player} {idx d : Nat} {t : Token}
    {g' : LudoGame} {tok : Token} {i : Nat} {col : Color} {cap : Option (List CaptureInfo)}
    {another go : Bool} {w : Option Winner} {pf : Bool}
    (h : moveTokenApply g mp idx d t = (g', .moved tok i col cap another go w pf)) :
    (another = ((d == 6 || cap.isSome || tok.finished) && !go)) ∧
    (another = true → g'.currentPlayerIndex = g.currentPlayerIndex) ∧
    (another = false → g'.currentPlayerIndex =
      nextTurnIndex g.players g.eliminatedPlayers g.currentPlayerIndex ∧
      g'.consecutiveSixes = 0) ∧
    g'.lastDiceRoll = none := by
  unfold moveTokenApply at h
  rw [Prod.mk.injEq] at h
  obtain ⟨hstate, hout⟩ := h
  injection hout with htok hidx hcol hcap hanother hgo hw hpf
  subst htok
  subst hcap
  subst hanother
  subst hgo
  subst hstate
  refine ⟨?_, ?_, ?_, mtG6_lastDiceRoll g mp idx d t⟩
  · rw [mtG6_gameOver]
    rfl
  · intro hbonus
    show (mtG5 g mp idx d t).currentPlayerIndex = g.currentPlayerIndex
    unfold mtG5
    rw [hbonus]
    simp only [Bool.not_true, Bool.false_eq_true, if_false]
    exact mtG4_currentPlayerIndex g mp idx d t
  · intro hnobonus
    have h5 : mtG5 g mp idx d t = nextTurn (mtG4 g mp idx d t) := by
      unfold mtG5
      rw [hnobonus]
      rfl
    constructor
    · show (mtG5 g mp idx d t).currentPlayerIndex = _
      rw [h5, nextTurn_currentPlayerIndex, mtG4_eliminatedPlayers, mtG4_currentPlayerIndex]
      obtain ⟨f, hf, hplayers⟩ := mtG4_players_map g mp idx d t
      rw [hplayers, nextTurnIndex_map_id hf]
    · show (mtG5 g mp idx d t).consecutiveSixes = 0
      rw [h5, nextTurn_consecutiveSixes]

/-- Inversion of a non-rejected `moveToken` call: the validations must have
passed, and the result is that of the move body. -/
lemma moveToken_moved_inv {g : LudoGame} {pid : String} {idx : Nat}
    {g' : LudoGame} {out : MoveOutcome}
    (hres : moveToken g pid idx = (g', out)) (hnr : ∀ e, out ≠ MoveOutcome.rejected e) :
    ∃ cp d t, g.players.get? g.currentPlayerIndex = some cp ∧ cp.id = pid ∧
      g.gameStarted = true ∧ g.gameOver = false ∧
      g.lastDiceRoll = some d ∧
      (getMovableTokens g cp d).contains idx = true ∧
      (controlledPlayer g cp).tokens.get? idx = some t ∧
      moveTokenApply g (controlledPlayer g cp) idx d t = (g', out) := by
  unfold moveToken at hres
  split at hres
  next hc =>
    rw [Prod.mk.injEq] at hres
    exact absurd hres.2.symm (hnr _)
  next hc =>
    simp only [Bool.or_eq_true, Bool.not_eq_true', not_or, Bool.not_eq_true,
      Bool.not_eq_false] at hc
    split at hres
    next =>
      rw [Prod.mk.injEq] at hres
      exact absurd hres.2.symm (hnr _)
    next cp heq =>
      split at hres
      next hpid =>
        rw [Prod.mk.injEq] at hres
        exact absurd hres.2.symm (hnr _)
      next hpid =>
        split at hres
        next hdice =>
          rw [Prod.mk.injEq] at hres
          exact absurd hres.2.symm (hnr _)
        next d hdice =>
          split at hres
          next hcont =>
            rw [Prod.mk.injEq] at hres
            exact absurd hres.2.symm (hnr _)
          next hcont =>
            rcases hget : (controlledPlayer g cp).tokens.get? idx with _ | t
            · rw [moveTokenCore_eq_none hget] at hres
              rw [Prod.mk.injEq] at hres
              exact absurd hres.2.symm (hnr _)
            · rw [moveTokenCore_eq_some hget] at hres
              refine ⟨cp, d, t, heq, ?_, hc.1, hc.2, hdice, ?_, hget, hres⟩
              · simpa using hpid
              · simpa using hcont

/-- The movable set does not depend on the dice bookkeeping fields. -/
lemma getMovableTokens_dice_irrel (g : LudoGame) (x : Option Nat) (y : Nat)
    (p : Player) (d : Nat) :
    getMovableTokens { g with lastDiceRoll := x, consecutiveSixes := y } p d =
      getMovableTokens g p d := rfl

/-! ## Claim theorems -/

/-- Claim C3: for every successful `moveToken` call, a bonus turn (the
`anotherTurn` result, which skips `nextTurn`) is granted iff the match is not
over after the move and the dice was a 6, a capture occurred, or the moved
token is now finished; otherwise the pointer is updated by `nextTurn`
(advancing to the next non-eliminated player and resetting the six-streak);
and `lastDiceRoll` is always `none` on return. -/
theorem c3_bonus_turn :
    ∀ (g g' : LudoGame) (pid : String) (idx d : Nat) (tok : Token) (i : Nat) (col : Color)
      (cap : Option (List CaptureInfo)) (another go : Bool) (w : Option Winner) (pf : Bool),
      g.lastDiceRoll = some d →
      moveToken g pid idx = (g', MoveOutcome.moved tok i col cap another go w pf) →
      ((another = true ↔ (go = false ∧ (d = 6 ∨ cap ≠ none ∨ tok.finished = true))) ∧
       (another = true → g'.currentPlayerIndex = g.currentPlayerIndex) ∧
       (another = false → g'.currentPlayerIndex =
          nextTurnIndex g.players g.eliminatedPlayers g.currentPlayerIndex ∧
          g'.consecutiveSixes = 0) ∧
       g'.lastDiceRoll = none) := by
  intro g g' pid idx d tok i col cap another go w pf hdice hmove
  obtain ⟨cp, d₀, t, hcp, hpid, hst, hov, hdice₀, hcont, hget, happly⟩ :=
    moveToken_moved_inv hmove (fun e h => MoveOutcome.noConfusion h)
  rw [hdice] at hdice₀
  injection hdice₀ with hd
  subst hd
  obtain ⟨heq, hb, hnb, hdr⟩ := moveTokenApply_turn happly
  refine ⟨?_, hb, hnb, hdr⟩
  rw [heq]
  simp only [Bool.and_eq_true, Bool.or_eq_true, Bool.not_eq_true', beq_iff_eq,
    Option.isSome_iff_ne_none]
  tauto

/-- Witness for C3: in the fresh demo game, Alice rolls a 6 and moves token 0
out of base; the bonus-turn analysis applies to the concrete call. -/
theorem c3_bonus_turn_witness :
    ((rollDice demoGame "p1" 6).1.lastDiceRoll = some 6) ∧
    (moveToken (rollDice demoGame "p1" 6).1 "p1" 0 =
      ((moveToken (rollDice demoGame "p1" 6).1 "p1" 0).1,
        MoveOutcome.moved
          { id := 0, position := 0, inHomeStretch := false, homeStretchPosition := -1,
            finished := false } 0 Color.red none true false none false)) ∧
    ((true = true ↔ (false = false ∧ ((6 : Nat) = 6 ∨
        (none : Option (List CaptureInfo)) ≠ none ∨ false = true))) ∧
     (true = true → (moveToken (rollDice demoGame "p1" 6).1 "p1" 0).1.currentPlayerIndex =
        (rollDice demoGame "p1" 6).1.currentPlayerIndex) ∧
     (true = false → (moveToken (rollDice demoGame "p1" 6).1 "p1" 0).1.currentPlayerIndex =
        nextTurnIndex (rollDice demoGame "p1" 6).1.players
          (rollDice demoGame "p1" 6).1.eliminatedPlayers
          (rollDice demoGame "p1" 6).1.currentPlayerIndex ∧
        (moveToken (rollDice demoGame "p1" 6).1 "p1" 0).1.consecutiveSixes = 0) ∧
     (moveToken (rollDice demoGame "p1" 6).1 "p1" 0).1.lastDiceRoll = none) :=
  ⟨by decide, by decide,
   c3_bonus_turn (rollDice demoGame "p1" 6).1 (moveToken (rollDice demoGame "p1" 6).1 "p1" 0).1
     "p1" 0 6
     { id := 0, position := 0, inHomeStretch := false, homeStretchPosition := -1,
       finished := false } 0 Color.red none true false none false
     (by decide) (by decide)⟩

lemma captureCond_iff {t : Token} {pos : Int} :
    captureCond t pos = true ↔
      (t.position = pos ∧ t.inHomeStretch = false ∧ t.finished = false) := by
  unfold captureCond
  simp only [Bool.and_eq_true, beq_iff_eq, Bool.not_eq_true']
  tauto

/-- Claim C4: `checkCapture` resets to base exactly the opposing (non-exempt)
tokens occupying the landing square that are not in a home stretch, not
finished, and not on a safe square; every other token (and every other player
field) is untouched, and the returned list contains exactly the captured
tokens — all of them in a single call.  Exemption is by player identity (the
mover; colors are unique per match) and, in team mode, by the teammate's
color. -/
theorem c4_capture :
    ∀ (g : LudoGame) (cp : Player) (pos : Int),
      ((checkCapture g cp pos).1.players.length = g.players.length ∧
       (∀ i p, g.players.get? i = some p →
         ∃ p', (checkCapture g cp pos).1.players.get? i = some p' ∧
           p'.id = p.id ∧ p'.name = p.name ∧ p'.color = p.color ∧
           p'.finishedTokens = p.finishedTokens ∧
           p'.tokens.length = p.tokens.length ∧
           ∀ j t, p.tokens.get? j = some t →
             ∃ t', p'.tokens.get? j = some t' ∧
               ((SAFE_POSITIONS.contains pos = false ∧ captureExempt g cp p = false ∧
                   t.position = pos ∧ t.inHomeStretch = false ∧ t.finished = false →
                 t' = { t with position := -1 }) ∧
                (¬(SAFE_POSITIONS.contains pos = false ∧ captureExempt g cp p = false ∧
                   t.position = pos ∧ t.inHomeStretch = false ∧ t.finished = false) →
                 t' = t)))) ∧
      (∀ ci : CaptureInfo, ci ∈ (checkCapture g cp pos).2.getD [] ↔
        (SAFE_POSITIONS.contains pos = false ∧
         ∃ p ∈ g.players, captureExempt g cp p = false ∧
           ci.playerId = p.id ∧ ci.playerName = p.name ∧ ci.playerColor = p.color ∧
           ∃ t, p.tokens.get? ci.tokenIndex = some t ∧
             t.position = pos ∧ t.inHomeStretch = false ∧ t.finished = false)) := by
  intro g cp pos
  constructor
  · rw [checkCapture_players]
    by_cases hs : SAFE_POSITIONS.contains pos = true
    · rw [if_pos hs]
      refine ⟨rfl, ?_⟩
      intro i p hgi
      refine ⟨p, hgi, rfl, rfl, rfl, rfl, rfl, ?_⟩
      intro j t hgt
      refine ⟨t, hgt, ?_, fun _ => rfl⟩
      rintro ⟨hns, -⟩
      rw [hs] at hns
      cases hns
    · rw [if_neg hs]
      rw [Bool.not_eq_true] at hs
      refine ⟨by rw [List.length_map], ?_⟩
      intro i p hgi
      have hmap : (g.players.map (fun p =>
          if captureExempt g cp p then p
          else { p with tokens := p.tokens.map (captureReset pos) })).get? i =
          some (if captureExempt g cp p then p
            else { p with tokens := p.tokens.map (captureReset pos) }) := by
        rw [List.get?_map, hgi]
        rfl
      by_cases hex : captureExempt g cp p = true
      · rw [if_pos hex] at hmap
        refine ⟨p, hmap, rfl, rfl, rfl, rfl, rfl, ?_⟩
        intro j t hgt
        refine ⟨t, hgt, ?_, fun _ => rfl⟩
        rintro ⟨-, hexf, -⟩
        rw [hex] at hexf
        cases hexf
      · rw [if_neg hex] at hmap
        rw [Bool.not_eq_true] at hex
        refine ⟨_, hmap, rfl, rfl, rfl, rfl, by simp, ?_⟩
        intro j t hgt
        have htok : ({ p with tokens := p.tokens.map (captureReset pos) }).tokens.get? j =
            some (captureReset pos t) := by
          simp only []
          rw [List.get?_map, hgt]
          rfl
        refine ⟨captureReset pos t, htok, ?_, ?_⟩
        · rintro ⟨-, -, hcond⟩
          unfold captureReset
          rw [if_pos (captureCond_iff.mpr hcond)]
        · intro hncond
          unfold captureReset
          rw [if_neg ?_]
          intro hcc
          exact hncond ⟨hs, hex, captureCond_iff.mp hcc⟩
  · intro ci
    rw [checkCapture_captured_mem]
    constructor
    · rintro ⟨hs, p, hp, hex, h1, h2, h3, t, hgt, hcond⟩
      exact ⟨hs, p, hp, hex, h1, h2, h3, t, hgt, captureCond_iff.mp hcond⟩
    · rintro ⟨hs, p, hp, hex, h1, h2, h3, t, hgt, hcond⟩
      exact ⟨hs, p, hp, hex, h1, h2, h3, t, hgt, captureCond_iff.mpr hcond⟩

/-- Witness for C4: Alice capturing on square 5 of `captureGame` sends both of
Bob's stacked tokens back to base and reports both captures. -/
theorem c4_capture_witness :
    ((checkCapture captureGame captureAlice 5).2 =
      some [CaptureInfo.mk "p2" "Bob" Color.yellow 0,
            CaptureInfo.mk "p2" "Bob" Color.yellow 1]) ∧
    ((checkCapture captureGame captureAlice 5).1.players.map
        (fun p => p.tokens.map Token.position) = [[2, -1, -1, -1], [-1, -1, -1, -1]]) ∧
    (CaptureInfo.mk "p2" "Bob" Color.yellow 0 ∈
        (checkCapture captureGame captureAlice 5).2.getD [] ↔
      (SAFE_POSITIONS.contains (5 : Int) = false ∧
       ∃ p ∈ captureGame.players, captureExempt captureGame captureAlice p = false ∧
         "p2" = p.id ∧ "Bob" = p.name ∧ Color.yellow = p.color ∧
         ∃ t, p.tokens.get? 0 = some t ∧
           t.position = 5 ∧ t.inHomeStretch = false ∧ t.finished = false)) :=
  ⟨by decide, by decide,
   (c4_capture captureGame captureAlice 5).2 (CaptureInfo.mk "p2" "Bob" Color.yellow 0)⟩

/-- Counterexample to claim C2 as stated: in a reachable game where Bob has
been eliminated, all four of Bob's tokens are marked finished yet sit in base
(position −1), and `getMovableTokens` lists every one of them for a 6 —
so "tokens with finished = true are never in the movable set" is false. -/
theorem c2_counterexample :
    getMovableTokens elimGame elimBob 6 = [0, 1, 2, 3] ∧
    elimBob.tokens.map Token.finished = [true, true, true, true] := by
  decide

/-- Claim C2 (amended): a token index is movable iff the token satisfies, in
the code's evaluation order: in base (position −1) and `d = 6` — even if the
token is marked finished, as after an elimination reset; otherwise a finished
token is never movable; in the home stretch it is movable iff
`homeStretchPosition + d ≤ 5`; on the main track it is always movable.
Equivalently, finished tokens are never movable unless they sit in base. -/
theorem c2_movable_set :
    (∀ (g : LudoGame) (p : Player) (d : Nat) (i : Nat),
      isPlayerFinished g (controlledPlayer g p).id = false →
      (i ∈ getMovableTokens g p d ↔
        ∃ t, (controlledPlayer g p).tokens.get? i = some t ∧
          ((t.position = -1 ∧ d = 6) ∨
           (t.position ≠ -1 ∧ t.finished = false ∧ t.inHomeStretch = true ∧
             t.homeStretchPosition + (d : Int) ≤ 5) ∨
           (t.position ≠ -1 ∧ t.finished = false ∧ t.inHomeStretch = false)))) ∧
    (∀ (g : LudoGame) (p : Player) (d : Nat) (i : Nat) (t : Token),
      (controlledPlayer g p).tokens.get? i = some t →
      t.finished = true → t.position ≠ -1 →
      i ∉ getMovableTokens g p d) := by
  constructor
  · intro g p d i hfin
    rw [mem_getMovableTokens hfin]
    constructor
    · rintro ⟨t, hg, hc⟩
      exact ⟨t, hg, movableCond_iff.mp hc⟩
    · rintro ⟨t, hg, hc⟩
      exact ⟨t, hg, movableCond_iff.mpr hc⟩
  · intro g p d i t hget hfin hpos hmem
    by_cases hpf : isPlayerFinished g (controlledPlayer g p).id = false
    · obtain ⟨t', hg', hc'⟩ := (mem_getMovableTokens hpf).mp hmem
      rw [hget] at hg'
      injection hg' with ht
      subst ht
      rw [movableCond_finished hfin hpos] at hc'
      cases hc'
    · rw [Bool.not_eq_false] at hpf
      unfold getMovableTokens at hmem
      simp only [] at hmem
      rw [if_pos hpf] at hmem
      simp at hmem

/-- Witness for C2: in `finishedTokenGame` the finished red token 0 (which has
completed the home stretch, so its position is on the track) is not movable
with a 3. -/
theorem c2_movable_set_witness :
    ((controlledPlayer finishedTokenGame ((finishedTokenGame.players.get? 0).getD
        defaultPlayer)).tokens.get? 0 =
      some { id := 0, position := 49, inHomeStretch := true, homeStretchPosition := 5,
             finished := true }) ∧
    0 ∉ getMovableTokens finishedTokenGame
      ((finishedTokenGame.players.get? 0).getD defaultPlayer) 3 :=
  ⟨by decide,
   c2_movable_set.2 finishedTokenGame ((finishedTokenGame.players.get? 0).getD defaultPlayer)
     3 0 { id := 0, position := 49, inHomeStretch := true, homeStretchPosition := 5,
           finished := true }
     (by decide) (by decide) (by decide)⟩

/-- Claim C5: when `incrementMissedTurns` raises a non-robot player's
missed-turn count to 5, the player joins the eliminated set and every token of
every player record carrying that id is reset to base (`position = −1`,
`inHomeStretch = false`) and marked `finished = true` — in particular the
player's own record with all 4 tokens; and as long as some non-eliminated
player exists, `nextTurn` never selects an eliminated player. -/
theorem c5_elimination :
    (∀ (g : LudoGame) (pid : String) (p : Player),
      g.players.find? (fun q => q.id == pid) = some p →
      p.isRobot = false →
      lookupCount g.playerMissedTurns pid = 4 →
      pid ∉ g.eliminatedPlayers →
      p.tokens.length = 4 →
      ((incrementMissedTurns g pid).2 = true ∧
       pid ∈ (incrementMissedTurns g pid).1.eliminatedPlayers ∧
       (∀ q ∈ (incrementMissedTurns g pid).1.players, q.id = pid →
         ∀ t ∈ q.tokens, t.position = -1 ∧ t.inHomeStretch = false ∧ t.finished = true) ∧
       (∃ q ∈ (incrementMissedTurns g pid).1.players, q.id = pid ∧ q.tokens.length = 4))) ∧
    (∀ (g : LudoGame), (∃ p ∈ g.players, p.id ∉ g.eliminatedPlayers) →
      ∃ q, (nextTurn g).players.get? (nextTurn g).currentPlayerIndex = some q ∧
        q.id ∉ g.eliminatedPlayers) := by
  constructor
  · intro g pid p hfind hrobot hcount helim htok4
    have hkey : incrementMissedTurns g pid =
        (eliminatePlayer { g with
          playerMissedTurns := setCount g.playerMissedTurns pid
            (lookupCount g.playerMissedTurns pid + 1) } pid, true) := by
      unfold incrementMissedTurns
      rw [hfind]
      simp only []
      rw [if_neg (by simp [hrobot])]
      rw [if_pos (by rw [hcount])]
    have hcont : g.eliminatedPlayers.contains pid = false := by simpa using helim
    have hcont' : (({ g with
        playerMissedTurns := setCount g.playerMissedTurns pid
          (lookupCount g.playerMissedTurns pid + 1) } : LudoGame).eliminatedPlayers).contains
        pid = false := hcont
    have helimeq : eliminatePlayer { g with
        playerMissedTurns := setCount g.playerMissedTurns pid
          (lookupCount g.playerMissedTurns pid + 1) } pid =
      { g with
        playerMissedTurns := setCount g.playerMissedTurns pid
          (lookupCount g.playerMissedTurns pid + 1)
        eliminatedPlayers := g.eliminatedPlayers ++ [pid]
        players := g.players.map (fun p =>
          if p.id == pid then { p with tokens := p.tokens.map resetTokenForElimination }
          else p) } := by
      unfold eliminatePlayer
      rw [if_neg (by rw [hcont']; exact Bool.false_ne_true)]
    rw [hkey, helimeq]
    refine ⟨rfl, by simp, ?_, ?_⟩
    · intro q hq hqid
      obtain ⟨p₀, hp₀, rfl⟩ := List.mem_map.mp hq
      by_cases hpe : (p₀.id == pid) = true
      · rw [if_pos hpe]
        intro t ht
        simp only [] at ht
        obtain ⟨t₀, ht₀, rfl⟩ := List.mem_map.mp ht
        exact ⟨rfl, rfl, rfl⟩
      · rw [if_neg hpe] at hqid ⊢
        exact absurd (by simp [hqid]) hpe
    · refine ⟨_, List.mem_map.mpr ⟨p, List.mem_of_find?_eq_some hfind, rfl⟩, ?_⟩
      have hpe : (p.id == pid) = true :=
        List.find?_some (p := fun q : Player => q.id == pid) hfind
      rw [if_pos hpe]
      exact ⟨beq_iff_eq.mp hpe, by simpa using htok4⟩
  · intro g hex
    obtain ⟨p, hp, hpe⟩ := hex
    obtain ⟨q, hq, hqe⟩ :=
      @nextTurnIndex_spec g.players g.eliminatedPlayers g.currentPlayerIndex
        ⟨p, hp, by simpa using hpe⟩
    exact ⟨q, hq, by simpa using hqe⟩

/-- Witness for C5: the fifth missed turn eliminates Bob in the demo game, and
`nextTurn` from `elimGame` selects a non-eliminated player. -/
theorem c5_elimination_witness :
    (demoGame4.players.find? (fun q => q.id == "p2") = some demoBob4 ∧
     demoBob4.isRobot = false ∧
     lookupCount demoGame4.playerMissedTurns "p2" = 4 ∧
     "p2" ∉ demoGame4.eliminatedPlayers ∧
     demoBob4.tokens.length = 4 ∧
     ((incrementMissedTurns demoGame4 "p2").2 = true ∧
      "p2" ∈ (incrementMissedTurns demoGame4 "p2").1.eliminatedPlayers ∧
      (∀ q ∈ (incrementMissedTurns demoGame4 "p2").1.players, q.id = "p2" →
        ∀ t ∈ q.tokens, t.position = -1 ∧ t.inHomeStretch = false ∧ t.finished = true) ∧
      (∃ q ∈ (incrementMissedTurns demoGame4 "p2").1.players, q.id = "p2" ∧
        q.tokens.length = 4))) ∧
    ((∃ p ∈ elimGame.players, p.id ∉ elimGame.eliminatedPlayers) ∧
     ∃ q, (nextTurn elimGame).players.get? (nextTurn elimGame).currentPlayerIndex = some q ∧
       q.id ∉ elimGame.eliminatedPlayers) :=
  ⟨⟨by decide, by decide, by decide, by decide, by decide,
    c5_elimination.1 demoGame4 "p2" demoBob4 (by decide) (by decide) (by decide)
      (by decide) (by decide)⟩,
   ⟨⟨demoAlice,
     List.mem_of_find?_eq_some (p := fun q => q.id == "p1") (by decide), by decide⟩,
    c5_elimination.2 elimGame ⟨demoAlice,
      List.mem_of_find?_eq_some (p := fun q => q.id == "p1") (by decide), by decide⟩⟩⟩

/-- Claim C6: for every accepted roll by the current player: a third
consecutive six forfeits the turn with no move phase (dice cleared, six-streak
reset, pointer advanced by `nextTurn`); otherwise, an empty movable set with
`d ≠ 6` passes the turn immediately; an empty movable set with `d = 6` keeps
the same player with the six-streak intact and the dice cleared for a re-roll;
and a non-empty movable set leaves the game awaiting a move with
`lastDiceRoll = d`. -/
theorem c6_roll_flow :
    ∀ (g : LudoGame) (pid : String) (d : Nat) (cp : Player),
      g.gameStarted = true → g.gameOver = false →
      g.players.get? g.currentPlayerIndex = some cp → cp.id = pid →
      (((d = 6 ∧ g.consecutiveSixes = 2) →
          (rollDice g pid d).2 = RollOutcome.rolled d false true none ∧
          (rollDice g pid d).1.lastDiceRoll = none ∧
          (rollDice g pid d).1.consecutiveSixes = 0 ∧
          (rollDice g pid d).1.currentPlayerIndex =
            nextTurnIndex g.players g.eliminatedPlayers g.currentPlayerIndex) ∧
       (¬(d = 6 ∧ g.consecutiveSixes = 2) →
          ((getMovableTokens g cp d = [] ∧ d ≠ 6 →
            (rollDice g pid d).2 = RollOutcome.rolled d false true (some []) ∧
            (rollDice g pid d).1.lastDiceRoll = none ∧
            (rollDice g pid d).1.consecutiveSixes = 0 ∧
            (rollDice g pid d).1.currentPlayerIndex =
              nextTurnIndex g.players g.eliminatedPlayers g.currentPlayerIndex) ∧
          (getMovableTokens g cp d = [] ∧ d = 6 →
            rollDice g pid d =
              ({ g with lastDiceRoll := none, consecutiveSixes := g.consecutiveSixes + 1 },
               RollOutcome.rolled d false false (some []))) ∧
          (getMovableTokens g cp d ≠ [] →
            rollDice g pid d =
              ({ g with lastDiceRoll := some d, consecutiveSixes := if d == 6 then g.consecutiveSixes + 1 else 0 },
               RollOutcome.rolled d true false (some (getMovableTokens g cp d))))))) := by
  intro g pid d cp hst hov hcp hid
  have hc1 : (!g.gameStarted || g.gameOver) = false := by
    rw [hst, hov]
    rfl
  have hrd : rollDice g pid d =
      (let g1 := { g with
         lastDiceRoll := some d
         consecutiveSixes := if d == 6 then g.consecutiveSixes + 1 else 0 }
       if g1.consecutiveSixes == 3 then
         (nextTurn { g1 with lastDiceRoll := none }, .rolled d false true none)
       else
         let movable := getMovableTokens g1 cp d
         if movable.isEmpty then
           if d == 6 then
             ({ g1 with lastDiceRoll := none }, .rolled d false false (some movable))
           else
             (nextTurn { g1 with lastDiceRoll := none }, .rolled d false true (some movable))
         else (g1, .rolled d true false (some movable))) := by
    unfold rollDice
    rw [if_neg (show ¬((!g.gameStarted || g.gameOver) = true) by simp [hc1])]
    rw [hcp]
    simp only []
    rw [if_neg (show ¬((cp.id != pid) = true) by simp [hid])]
  refine ⟨?_, ?_⟩
  · rintro ⟨rfl, hsix⟩
    rw [hrd]
    simp only []
    have hc3 : (((if ((6 : Nat) == 6) = true then g.consecutiveSixes + 1 else 0) == 3) : Bool)
        = true := by
      rw [hsix]
      decide
    rw [if_pos hc3]
    exact ⟨rfl, rfl, rfl, rfl⟩
  · intro hns
    rw [hrd]
    simp only []
    have hc3 : ((if (d == 6) = true then g.consecutiveSixes + 1 else 0) == 3) = false := by
      by_cases hd6 : (d == 6) = true
      · rw [if_pos hd6]
        have hne2 : g.consecutiveSixes ≠ 2 := fun h => hns ⟨beq_iff_eq.mp hd6, h⟩
        exact beq_eq_false_iff_ne.mpr (by omega)
      · rw [if_neg hd6]
        rfl
    rw [if_neg (show ¬(((if (d == 6) = true then g.consecutiveSixes + 1 else 0) == 3) = true)
      by rw [hc3]; exact Bool.false_ne_true)]
    rw [show getMovableTokens { g with lastDiceRoll := some d, consecutiveSixes := if (d == 6) = true then g.consecutiveSixes + 1 else 0 } cp d = getMovableTokens g cp d from rfl]
    refine ⟨?_, ?_, ?_⟩
    · rintro ⟨hemp, hd6⟩
      rw [hemp]
      rw [if_pos (show ([] : List Nat).isEmpty = true from rfl)]
      rw [if_neg (show ¬((d == 6) = true) by simpa using hd6)]
      exact ⟨rfl, rfl, rfl, rfl⟩
    · rintro ⟨hemp, rfl⟩
      rw [hemp]
      rw [if_pos (show ([] : List Nat).isEmpty = true from rfl)]
      rw [if_pos (show (((6 : Nat) == 6) = true) from rfl)]
      rfl
    · intro hne
      have hemp : (getMovableTokens g cp d).isEmpty = false := by
        cases hmv : getMovableTokens g cp d with
        | nil => exact absurd hmv hne
        | cons a l => rfl
      rw [if_neg (show ¬((getMovableTokens g cp d).isEmpty = true) by simp [hemp])]

/-- Witness for C6: in the fresh two-player game every token is in base, so a
roll of 3 finds no movable token and the turn passes immediately. -/
theorem c6_roll_flow_witness :
    (demoGame.gameStarted = true ∧ demoGame.gameOver = false ∧
     demoGame.players.get? demoGame.currentPlayerIndex = some demoAlice ∧
     demoAlice.id = "p1" ∧ ¬((3 : Nat) = 6 ∧ demoGame.consecutiveSixes = 2) ∧
     getMovableTokens demoGame demoAlice 3 = [] ∧ (3 : Nat) ≠ 6) ∧
    ((rollDice demoGame "p1" 3).2 = RollOutcome.rolled 3 false true (some []) ∧
     (rollDice demoGame "p1" 3).1.lastDiceRoll = none ∧
     (rollDice demoGame "p1" 3).1.consecutiveSixes = 0 ∧
     (rollDice demoGame "p1" 3).1.currentPlayerIndex =
       nextTurnIndex demoGame.players demoGame.eliminatedPlayers
         demoGame.currentPlayerIndex) :=
  ⟨⟨by decide, by decide, by decide, by decide, by decide, by decide, by decide⟩,
   ((c6_roll_flow demoGame "p1" 3 demoAlice (by decide) (by decide) (by decide)
       (by decide)).2 (by decide)).1 ⟨by decide, by decide⟩⟩

/-- Claim C8: every rejected `rollDice` or `moveToken` call is side-effect-free:
whenever the outcome is `rejected`, the returned game state is exactly the
input state. -/
theorem c8_rejection_frame :
    (∀ (g : LudoGame) (pid : String) (d : Nat) (e : String),
      (rollDice g pid d).2 = RollOutcome.rejected e → (rollDice g pid d).1 = g) ∧
    (∀ (g : LudoGame) (pid : String) (idx : Nat) (e : String),
      (moveToken g pid idx).2 = MoveOutcome.rejected e → (moveToken g pid idx).1 = g) :=
  ⟨fun _ _ _ _ h => rollDice_rejected h, fun _ _ _ _ h => moveToken_rejected h⟩

/-- Witness for C8: rolling or moving in a not-yet-started game is rejected and
leaves the fresh game unchanged. -/
theorem c8_rejection_frame_witness :
    ((rollDice (newLudoGame false) "p1" 3).2 = RollOutcome.rejected "Game not in progress" ∧
      (rollDice (newLudoGame false) "p1" 3).1 = newLudoGame false) ∧
    ((moveToken (newLudoGame false) "p1" 0).2 = MoveOutcome.rejected "Game not in progress" ∧
      (moveToken (newLudoGame false) "p1" 0).1 = newLudoGame false) :=
  ⟨⟨by decide, c8_rejection_frame.1 (newLudoGame false) "p1" 3 "Game not in progress"
      (by decide)⟩,
   ⟨by decide, c8_rejection_frame.2 (newLudoGame false) "p1" 0 "Game not in progress"
      (by decide)⟩⟩

/-- Counterexample to claim C9: in `autoPlayGame` the movable set for the
rolled 1 is `[0, 1]`; token 1 (home stretch position 0) has distance 5 to home
while token 0 (track square 20) has distance 35, so a minimum-distance
heuristic would move token 1 — yet `autoMoveToken` moves token 0, the first
movable index: afterwards token 0 sits on square 21 and token 1 is unchanged. -/
theorem c9_counterexample :
    getMovableTokens autoPlayGame autoAlice 1 = [0, 1] ∧
    calculateDistanceToHome Color.red
      { id := 1, position := 49, inHomeStretch := true, homeStretchPosition := 0,
        finished := false } = 5 ∧
    calculateDistanceToHome Color.red
      { id := 0, position := 20, inHomeStretch := false, homeStretchPosition := -1,
        finished := false } = 35 ∧
    tokenAt (autoMoveToken autoPlayGame "p1").1 0 0 =
      some { id := 0, position := 21, inHomeStretch := false,
             homeStretchPosition := -1, finished := false } ∧
    tokenAt (autoMoveToken autoPlayGame "p1").1 0 1 =
      some { id := 1, position := 49, inHomeStretch := true,
             homeStretchPosition := 0, finished := false } := by decide

/-- Claim C9, corrected: the auto-play move is deterministic, but its rule is
not minimum distance to home — `autoMoveToken` always moves the FIRST index of
the movable-token list. -/
theorem c9_auto_first :
    ∀ (g : LudoGame) (pid : String) (p : Player) (d : Nat) (idx : Nat)
      (rest : List Nat),
      g.players.find? (fun q => q.id == pid) = some p →
      g.lastDiceRoll = some d →
      getMovableTokens g p d = idx :: rest →
      autoMoveToken g pid =
        ((moveToken g pid idx).1, .moved (moveToken g pid idx).2) := by
  intro g pid p d idx rest hfind hdice hmov
  unfold autoMoveToken
  rw [hfind]
  simp only []
  rw [hdice]
  simp only []
  rw [hmov]

/-- Witness for the corrected C9: in `autoPlayGame` the movable list is
`[0, 1]` and the auto-play moves token 0. -/
theorem c9_auto_first_witness :
    (autoPlayGame.players.find? (fun q => q.id == "p1") = some autoAlice ∧
     autoPlayGame.lastDiceRoll = some 1 ∧
     getMovableTokens autoPlayGame autoAlice 1 = 0 :: [1]) ∧
    autoMoveToken autoPlayGame "p1" =
      ((moveToken autoPlayGame "p1" 0).1,
       AutoOutcome.moved (moveToken autoPlayGame "p1" 0).2) :=
  ⟨⟨by decide, by decide, by decide⟩,
   c9_auto_first autoPlayGame "p1" autoAlice 1 0 [1] (by decide) (by decide)
     (by decide)⟩

/-- Claim C1: for a token on the main track (`pos < 52`) and a dice value
`d ∈ 1..6`, `willEnterHomeStretch` is true exactly when one of the `d`
single-square steps, simulated modulo 52, lands on the home-entrance offset
(with unit steps, landing on and passing coincide, wrap-around included), and
`calculateHomeStretchSteps` returns the steps remaining after the entrance is
reached; in particular, in Scenario B a red token on square 47 (three before
entrance 50) moved with a rolled 5 ends in the home stretch at position 2. -/
theorem c1_home_stretch_entry :
    (∀ pos ent d : Nat, pos < 52 → ent < 52 → 1 ≤ d → d ≤ 6 →
      ((willEnterHomeStretch pos d ent = true ↔
        ∃ i, 1 ≤ i ∧ i ≤ d ∧ (pos + i) % 52 = ent) ∧
       (∀ i, 1 ≤ i → i ≤ d → (pos + i) % 52 = ent →
         calculateHomeStretchSteps pos d ent = d - i))) ∧
    tokenAt (moveToken scenarioBGame "p1" 0).1 0 0 =
      some { id := 0, position := 47, inHomeStretch := true,
             homeStretchPosition := 2, finished := false } :=
  ⟨fun _ _ _ hpos hent _ hd6 =>
    ⟨willEnter_iff hpos hent hd6,
     fun _ hi1 hi2 heq => calcSteps_eq hpos hent hd6 hi1 hi2 heq⟩,
   by decide⟩

/-- Witness for C1: at `pos = 47`, `ent = 50`, `d = 5` the entrance is hit at
step `i = 3` and the remaining steps are `5 - 3 = 2`. -/
theorem c1_home_stretch_entry_witness :
    ((47 : Nat) < 52 ∧ (50 : Nat) < 52 ∧ (1 : Nat) ≤ 5 ∧ (5 : Nat) ≤ 6 ∧
     (willEnterHomeStretch 47 5 50 = true ↔
       ∃ i, 1 ≤ i ∧ i ≤ 5 ∧ (47 + i) % 52 = 50) ∧
     ((1 : Nat) ≤ 3 ∧ (3 : Nat) ≤ 5 ∧ (47 + 3) % 52 = 50 ∧
      calculateHomeStretchSteps 47 5 50 = 5 - 3)) :=
  ⟨by decide, by decide, by decide, by decide,
   (c1_home_stretch_entry.1 47 50 5 (by decide) (by decide) (by decide) (by decide)).1,
   by decide, by decide, by decide,
   (c1_home_stretch_entry.1 47 50 5 (by decide) (by decide) (by decide) (by decide)).2 3
     (by decide) (by decide) (by decide)⟩

/-- Claim C10: a successful `moveToken` that brings a token out of base
(position −1, dice 6) changes only that token, which lands on its color's
fixed entry square; no capture check runs, so the returned `captured` field is
`none` and every other player record — including any opposing tokens on the
entry square — is untouched; and every entry square is also a safe square. -/
theorem c10_base_exit :
    ∀ (g : LudoGame) (pid : String) (idx : Nat) (cp : Player) (t : Token)
      (g' : LudoGame) (tok : Token) (i : Nat) (col : Color)
      (cap : Option (List CaptureInfo)) (another go : Bool) (w : Option Winner)
      (pf : Bool),
      g.players.get? g.currentPlayerIndex = some cp →
      (controlledPlayer g cp).tokens.get? idx = some t →
      t.position = -1 →
      g.lastDiceRoll = some 6 →
      moveToken g pid idx = (g', .moved tok i col cap another go w pf) →
      (cap = none ∧
       tok = { t with position := START_POSITIONS (controlledPlayer g cp).color } ∧
       g'.players = g.players.map (fun p =>
         if p.id == (controlledPlayer g cp).id then
           { controlledPlayer g cp with
             tokens := (controlledPlayer g cp).tokens.set idx tok }
         else p) ∧
       (∀ j, idx ≠ j →
         ((controlledPlayer g cp).tokens.set idx tok).get? j =
           (controlledPlayer g cp).tokens.get? j) ∧
       (∀ c : Color, SAFE_POSITIONS.contains (START_POSITIONS c) = true)) := by
  intro g pid idx cp t g' tok i col cap another go w pf hcp hget hbase hdice hmove
  obtain ⟨cp', d, t', hcp', hid', hst, hov, hdice', hcont', hget', happly⟩ :=
    moveToken_moved_inv hmove (fun e h => MoveOutcome.noConfusion h)
  have hcpeq : cp' = cp := Option.some.inj (hcp'.symm.trans hcp)
  rw [hcpeq] at hget' happly
  have hteq : t' = t := Option.some.inj (hget'.symm.trans hget)
  rw [hteq] at happly
  have happ : applyTokenMove (controlledPlayer g cp).color t d =
      ({ t with position := START_POSITIONS (controlledPlayer g cp).color },
       false, false) := by
    unfold applyTokenMove
    rw [if_pos (show (t.position == (-1 : Int)) = true by rw [hbase]; decide)]
  have htok : mtToken (controlledPlayer g cp) d t =
      { t with position := START_POSITIONS (controlledPlayer g cp).color } := by
    unfold mtToken
    rw [happ]
  have hfi : mtFinishedInc (controlledPlayer g cp) d t = false := by
    unfold mtFinishedInc
    rw [happ]
  have hdc : mtDoCapture (controlledPlayer g cp) d t = false := by
    unfold mtDoCapture
    rw [happ]
  have hcapeq : mtCap g (controlledPlayer g cp) idx d t =
      (mtG1 g (controlledPlayer g cp) idx d t, none) := by
    unfold mtCap
    rw [if_neg (show ¬(mtDoCapture (controlledPlayer g cp) d t = true) by
      rw [hdc]; exact Bool.false_ne_true)]
  have hmover : mtMover (controlledPlayer g cp) idx d t =
      { controlledPlayer g cp with
        tokens := (controlledPlayer g cp).tokens.set idx
          { t with position := START_POSITIONS (controlledPlayer g cp).color } } := by
    unfold mtMover
    rw [htok, hfi]
    rfl
  unfold moveTokenApply at happly
  rw [Prod.mk.injEq] at happly
  obtain ⟨hstate, hout⟩ := happly
  injection hout with htokeq hidx hcol hcap hanother hgo hw hpf
  have hcapnone : cap = none := by
    rw [← hcap, hcapeq]
  have htokval : tok =
      { t with position := START_POSITIONS (controlledPlayer g cp).color } := by
    rw [← htokeq, htok]
  subst hstate
  have hplayers : (mtG6 g (controlledPlayer g cp) idx d t).players =
      g.players.map (fun p =>
        if p.id == (controlledPlayer g cp).id then
          { controlledPlayer g cp with
            tokens := (controlledPlayer g cp).tokens.set idx
              { t with position := START_POSITIONS (controlledPlayer g cp).color } }
        else p) := by
    have h65 : (mtG6 g (controlledPlayer g cp) idx d t).players =
        (mtG5 g (controlledPlayer g cp) idx d t).players := rfl
    have h54 : (mtG5 g (controlledPlayer g cp) idx d t).players =
        (mtG4 g (controlledPlayer g cp) idx d t).players := by
      unfold mtG5
      split
      · rw [nextTurn_players]
      · rfl
    have h43 : (mtG4 g (controlledPlayer g cp) idx d t).players =
        (mtG3 g (controlledPlayer g cp) idx d t).players := rfl
    have h3c : (mtG3 g (controlledPlayer g cp) idx d t).players =
        (mtCap g (controlledPlayer g cp) idx d t).1.players := by
      unfold mtG3
      split
      · rw [markPlayerFinished_players]
      · rfl
    rw [h65, h54, h43, h3c, hcapeq]
    show (mtG1 g (controlledPlayer g cp) idx d t).players = _
    unfold mtG1
    simp only []
    rw [hmover]
  refine ⟨hcapnone, htokval, ?_, ?_, ?_⟩
  · rw [htokval]
    exact hplayers
  · intro j hj
    rw [htokval]
    exact List.get?_set_ne _ _ hj
  · intro c
    cases c <;> decide

/-- Witness for C10: in `baseExitGame` Alice rolls a 6 and brings token 0 out
of base onto the red entry square 0. -/
theorem c10_base_exit_witness :
    (baseExitGame.players.get? baseExitGame.currentPlayerIndex = some demoAlice ∧
     (controlledPlayer baseExitGame demoAlice).tokens.get? 0 = some (baseToken 0) ∧
     (baseToken 0).position = -1 ∧
     baseExitGame.lastDiceRoll = some 6 ∧
     moveToken baseExitGame "p1" 0 =
       ((moveToken baseExitGame "p1" 0).1,
        MoveOutcome.moved c10Tok 0 Color.red none true false none false)) ∧
    ((none : Option (List CaptureInfo)) = none ∧
     c10Tok = { baseToken 0 with
       position := START_POSITIONS (controlledPlayer baseExitGame demoAlice).color } ∧
     (moveToken baseExitGame "p1" 0).1.players = baseExitGame.players.map (fun p =>
       if p.id == (controlledPlayer baseExitGame demoAlice).id then
         { controlledPlayer baseExitGame demoAlice with
           tokens := (controlledPlayer baseExitGame demoAlice).tokens.set 0 c10Tok }
       else p) ∧
     (∀ j, 0 ≠ j →
       ((controlledPlayer baseExitGame demoAlice).tokens.set 0 c10Tok).get? j =
         (controlledPlayer baseExitGame demoAlice).tokens.get? j) ∧
     (∀ c : Color, SAFE_POSITIONS.contains (START_POSITIONS c) = true)) :=
  ⟨⟨by decide, by decide, by decide, by decide, by decide⟩,
   c10_base_exit baseExitGame "p1" 0 demoAlice (baseToken 0)
     (moveToken baseExitGame "p1" 0).1 c10Tok 0 Color.red none true false none false
     (by decide) (by decide) (by decide) (by decide) (by decide)⟩

/-- Counterexample to claim C7: elimination produces reachable states with
finished tokens whose `homeStretchPosition` is −1, not 5 (`elimGame`); and
once every player is eliminated the turn pointer cannot move off an eliminated
player, so a subsequent `moveToken` call mutates a finished token, sending it
from base to its entry square (`c7Game`). -/
theorem c7_counterexample :
    (Reachable elimGame ∧
     tokenAt elimGame 1 0 =
       some { id := 0, position := -1, inHomeStretch := false,
              homeStretchPosition := -1, finished := true }) ∧
    (Reachable c7Game ∧
     tokenAt c7Game 0 0 =
       some { id := 0, position := -1, inHomeStretch := false,
              homeStretchPosition := -1, finished := true } ∧
     tokenAt (moveToken c7Game "p1" 0).1 0 0 =
       some { id := 0, position := 0, inHomeStretch := false,
              homeStretchPosition := -1, finished := true }) := by
  have h0 : Reachable demoGame :=
    .start (.addP "p2" "Bob" (.addP "p1" "Alice" (.new false)))
  have h1 : Reachable elimGame :=
    .missed "p2" (.missed "p2" (.missed "p2" (.missed "p2" (.missed "p2" h0))))
  have h2 : Reachable elimGame2 :=
    .missed "p1" (.missed "p1" (.missed "p1" (.missed "p1" (.missed "p1" h1))))
  have h3 : Reachable c7Game := .roll "p1" 6 (by decide) (by decide) h2
  exact ⟨⟨h1, by decide⟩, ⟨h3, by decide, by decide⟩⟩

/-- Claim C7, corrected: the `finished` flag itself is stable — `checkCapture`
returns every finished token unchanged, and the movement step of `moveToken`
(`applyTokenMove`) never clears `finished` and only ever sets it when the
token's `homeStretchPosition` lands exactly on 5.  The spec's stronger
invariant `finished → homeStretchPosition = 5` fails on reachable states,
because `eliminatePlayer` marks tokens finished without touching
`homeStretchPosition`. -/
theorem c7_finished_stable :
    (∀ (g : LudoGame) (cp : Player) (pos : Int) (i j : Nat) (t : Token),
      tokenAt g i j = some t → t.finished = true →
      tokenAt (checkCapture g cp pos).1 i j = some t) ∧
    (∀ (c : Color) (t : Token) (d : Nat),
      t.finished = true → (applyTokenMove c t d).1.finished = true) ∧
    (∀ (c : Color) (t : Token) (d : Nat),
      (applyTokenMove c t d).1.finished = true →
      t.finished = true ∨ (applyTokenMove c t d).1.homeStretchPosition = 5) := by
  refine ⟨?_, ?_, ?_⟩
  · intro g cp pos i j t hat hf
    have hcc : ¬(captureCond t pos = true) := by
      intro h
      have hff := (captureCond_iff.mp h).2.2
      rw [hf] at hff
      exact Bool.false_ne_true hff.symm
    have hreset : captureReset pos t = t := by
      unfold captureReset
      rw [if_neg hcc]
    unfold tokenAt at hat ⊢
    rcases hgi : g.players.get? i with _ | p
    · rw [hgi] at hat
      exact absurd hat (by simp)
    · rw [hgi] at hat
      simp only [] at hat
      rw [checkCapture_players]
      by_cases hs : SAFE_POSITIONS.contains pos = true
      · rw [if_pos hs, hgi]
        exact hat
      · rw [if_neg hs, List.get?_map, hgi]
        simp only [Option.map_some']
        by_cases hex : captureExempt g cp p = true
        · rw [if_pos hex]
          exact hat
        · rw [if_neg hex]
          simp only []
          rw [List.get?_map, hat]
          simp only [Option.map_some']
          rw [hreset]
  · intro c t d hf
    unfold applyTokenMove
    by_cases h1 : (t.position == (-1 : Int)) = true
    · rw [if_pos h1]
      exact hf
    · rw [if_neg h1]
      by_cases h2 : t.inHomeStretch = true
      · rw [if_pos h2]
        simp only []
        split
        · rfl
        · exact hf
      · rw [if_neg h2]
        simp only []
        by_cases h3 : willEnterHomeStretch t.position.toNat d (HOME_ENTRANCE c) = true
        · rw [if_pos h3]
          simp only []
          split
          · rfl
          · exact hf
        · rw [if_neg h3]
          exact hf
  · intro c t d hf
    unfold applyTokenMove at hf ⊢
    by_cases h1 : (t.position == (-1 : Int)) = true
    · rw [if_pos h1] at hf
      exact Or.inl hf
    · rw [if_neg h1] at hf ⊢
      by_cases h2 : t.inHomeStretch = true
      · rw [if_pos h2] at hf ⊢
        simp only [] at hf ⊢
        by_cases h3 : ((t.homeStretchPosition + (d : Int)) == 5) = true
        · right
          exact beq_iff_eq.mp h3
        · rw [if_neg h3] at hf
          exact Or.inl hf
      · rw [if_neg h2] at hf ⊢
        simp only [] at hf ⊢
        by_cases h3 : willEnterHomeStretch t.position.toNat d (HOME_ENTRANCE c) = true
        · rw [if_pos h3] at hf ⊢
          simp only [] at hf ⊢
          by_cases h4 : (((calculateHomeStretchSteps t.position.toNat d
              (HOME_ENTRANCE c) : Nat) : Int) == 5) = true
          · right
            exact beq_iff_eq.mp h4
          · rw [if_neg h4] at hf
            exact Or.inl hf
        · rw [if_neg h3] at hf
          exact Or.inl hf

/-- Witness for the corrected C7: the legitimately finished token of
`finishedTokenGame` passes unchanged through a capture check on its square,
and `applyTokenMove` keeps it finished. -/
theorem c7_finished_stable_witness :
    (tokenAt finishedTokenGame 0 0 = some c7FinTok ∧ c7FinTok.finished = true ∧
     tokenAt (checkCapture finishedTokenGame defaultPlayer 49).1 0 0 =
       some c7FinTok) ∧
    (applyTokenMove Color.red c7FinTok 3).1.finished = true ∧
    (c7FinTok.finished = true ∨
     (applyTokenMove Color.red c7FinTok 3).1.homeStretchPosition = 5) :=
  ⟨⟨by decide, by decide,
    c7_finished_stable.1 finishedTokenGame defaultPlayer 49 0 0 c7FinTok
      (by decide) (by decide)⟩,
   c7_finished_stable.2.1 Color.red c7FinTok 3 (by decide),
   c7_finished_stable.2.2 Color.red c7FinTok 3 (by decide)⟩

end Ludo
